import Mathlib

/-!
Verification development for the browser-based flow editor (src/js/flowEditor.js
and the node-type catalog in src/unnamed/part_000).  The mutable graph store,
the import/export operations, the per-type message handlers and the random
network-data generator are embedded shallowly below; DOM/SVG rendering calls,
which never touch the node/link data, are omitted.  JavaScript numbers are
modelled as rationals, JavaScript structured values as the inductive `JVal`.
-/

namespace FlowSpec

/-- JSON-like structured values, modelling the JavaScript values that appear in
node configurations and message payloads.  Composite values are compared by
reference in JavaScript; `primEq` below models strict equality accordingly. -/
inductive JVal where
  | null
  | bool (b : Bool)
  | num (q : ℚ)
  | str (s : String)
  | arr (items : List JVal)
  | obj (fields : List (String × JVal))

/-- Field lookup on an object value, i.e. `item[key]`; `none` models
`undefined` (also the result of property access on non-objects the code
performs it on, which all happen behind truthiness guards). -/
def JVal.lookup (v : JVal) (key : String) : Option JVal :=
  match v with
  | .obj fields => (fields.find? (fun f => f.1 = key)).map (fun f => f.2)
  | _ => none

/-- The ordered field list of an object value (`Object.keys` iteration order);
empty for non-objects (see the comment in `processDataItem` below). -/
def JVal.fields : JVal → List (String × JVal)
  | .obj fs => fs
  | _ => []

/-- JavaScript truthiness of a value. -/
def JVal.truthy : JVal → Bool
  | .null => false
  | .bool b => b
  | .num q => q ≠ 0
  | .str s => s ≠ ""
  | .arr _ => true
  | .obj _ => true

/-- Truthiness of a possibly-`undefined` value. -/
def truthyO : Option JVal → Bool
  | none => false
  | some v => v.truthy

/-- Strict equality `===` between primitive values.  Distinct composite values
(objects, arrays) are compared by reference in JavaScript and every comparison
in the embedded code compares a freshly extracted value against a stored one,
so composites never compare equal here. -/
def JVal.primEq : JVal → JVal → Bool
  | .null, .null => true
  | .bool a, .bool b => a == b
  | .num a, .num b => a == b
  | .str a, .str b => a == b
  | _, _ => false

/-- Strict equality where either side may be `undefined`
(`undefined === undefined` is true). -/
def primEqO : Option JVal → Option JVal → Bool
  | none, none => true
  | some a, some b => a.primEq b
  | _, _ => false

/-! ### Decimal rendering of numbers

The JavaScript code builds identifier strings with template literals such as
`node_${++this.nodeCounter}`.  `natStr` renders a natural number in decimal;
it is defined with explicit fuel so that it reduces inside the kernel. -/

/-- Decimal digit characters of `n`, most significant first; `fuel` bounds the
recursion depth (any `fuel ≥ n` is enough). -/
def natStrAux : ℕ → ℕ → List Char
  | 0, _ => []
  | fuel + 1, n =>
    if n = 0 then [] else natStrAux fuel (n / 10) ++ [Nat.digitChar (n % 10)]

/-- Decimal rendering of a natural number, modelling the template-literal
interpolation of a nonnegative integer. -/
def natStr (n : ℕ) : String :=
  if n = 0 then "0" else ⟨natStrAux n n⟩

/-- Decimal rendering of an integer. -/
def intStr (i : ℤ) : String :=
  if i < 0 then "-" ++ natStr (-i).toNat else natStr i.toNat

/-- Numeric value of a single decimal digit character. -/
def digitVal (c : Char) : ℕ := c.toNat - 48

/-- Value of a most-significant-first digit-character list. -/
def digitsVal (cs : List Char) : ℕ :=
  cs.foldl (fun acc c => acc * 10 + digitVal c) 0

theorem digitVal_digitChar (d : ℕ) (h : d < 10) :
    digitVal (Nat.digitChar d) = d := by
  interval_cases d <;> rfl

theorem digitsVal_append (cs : List Char) (c : Char) :
    digitsVal (cs ++ [c]) = digitsVal cs * 10 + digitVal c := by
  simp [digitsVal, List.foldl_append]

theorem digitsVal_natStrAux (fuel n : ℕ) (h : n ≤ fuel) :
    digitsVal (natStrAux fuel n) = n := by
  induction fuel generalizing n with
  | zero =>
    interval_cases n
    rfl
  | succ fuel ih =>
    by_cases hn : n = 0
    · simp [natStrAux, hn, digitsVal]
    · have hdiv : n / 10 ≤ fuel := by
        have h1 : n / 10 < n := Nat.div_lt_self (Nat.pos_of_ne_zero hn) (by norm_num)
        omega
      calc digitsVal (natStrAux (fuel + 1) n)
          = digitsVal (natStrAux fuel (n / 10) ++ [Nat.digitChar (n % 10)]) := by
            simp [natStrAux, hn]
        _ = digitsVal (natStrAux fuel (n / 10)) * 10 + digitVal (Nat.digitChar (n % 10)) :=
            digitsVal_append _ _
        _ = (n / 10) * 10 + n % 10 := by
            rw [ih _ hdiv, digitVal_digitChar _ (Nat.mod_lt n (by norm_num))]
        _ = n := by omega

theorem natStr_data_of_ne (n : ℕ) (h : n ≠ 0) : (natStr n).data = natStrAux n n := by
  rw [natStr, if_neg h]

theorem digitsVal_natStr (n : ℕ) : digitsVal (natStr n).data = n := by
  by_cases h : n = 0
  · subst h; rfl
  · rw [natStr_data_of_ne n h, digitsVal_natStrAux n n le_rfl]

theorem natStr_injective : Function.Injective natStr := by
  intro m n h
  have := congrArg (fun s => digitsVal (String.data s)) h
  simpa only [digitsVal_natStr] using this

theorem string_append_right_injective (p : String) :
    Function.Injective (fun s => p ++ s) := by
  intro a b h
  have h2 : p ++ a = p ++ b := h
  have hdata : p.data ++ a.data = p.data ++ b.data := congrArg String.data h2
  have hab : a.data = b.data := List.append_cancel_left hdata
  cases a; cases b; exact congrArg String.mk hab

/-! ### Node type registry (src/unnamed/part_000)

Only the fields the graph store reads are embedded: `inputs`, `outputs` and
`defaults`.  The icon, color, category and the configuration-form field
schemas are pure rendering data never consulted by the embedded operations. -/

/-- A node configuration: an insertion-ordered string-keyed object. -/
abbrev Config := List (String × JVal)

/-- Looks up a configuration key, i.e. `config[key]`; `none` is `undefined`. -/
def lookupField (c : Config) (key : String) : Option JVal :=
  (c.find? (fun f => f.1 = key)).map (fun f => f.2)

/-- The catalog entry for one node type. -/
structure NodeType where
  name : String
  inputs : ℕ
  outputs : ℕ
  defaults : Config

/-- The `NODE_TYPES` catalog, keyed by the type string. -/
def NODE_TYPES : List (String × NodeType) :=
  [ ("input", ⟨"Input", 0, 1, [("name", .str ""), ("value", .str "")]⟩),
    ("trigger", ⟨"Trigger", 0, 1,
      [("name", .str ""), ("interval", .str "1000"), ("repeat", .bool true)]⟩),
    ("exampleData", ⟨"Example Data", 0, 1,
      [("name", .str ""), ("dataType", .str "object"),
       ("payload", .str "\x7b\"temperature\": 23.5, \"humidity\": 65, \"timestamp\": \"2024-01-01T00:00:00Z\"\x7d")]⟩),
    ("function", ⟨"Function", 1, 1,
      [("name", .str ""), ("func", .str "return msg;")]⟩),
    ("filter", ⟨"Filter", 1, 1,
      [("name", .str ""), ("condition", .str "msg.payload > 0")]⟩),
    ("transform", ⟨"Transform", 1, 1,
      [("name", .str ""), ("property", .str "payload"), ("rules", .arr [])]⟩),
    ("output", ⟨"Output", 1, 0,
      [("name", .str ""), ("target", .str "console")]⟩),
    ("debug", ⟨"Debug", 1, 0,
      [("name", .str ""), ("complete", .str "payload"), ("console", .bool true)]⟩),
    ("dataTable", ⟨"Data Table", 1, 0,
      [("name", .str ""), ("maxRows", .num 10), ("autoWidth", .bool true),
       ("showHeaders", .bool true), ("appendData", .bool false)]⟩),
    ("chartNode", ⟨"Chart", 1, 0,
      [("name", .str ""), ("chartType", .str "line"), ("xField", .str "timestamp"),
       ("yField", .str "value"), ("maxPoints", .num 50), ("autoScale", .bool true),
       ("showGrid", .bool true)]⟩),
    ("graphViz", ⟨"Graph Visualization", 1, 0,
      [("name", .str ""), ("nodeIdField", .str "id"), ("nodeLabelField", .str "name"),
       ("edgeSourceField", .str "source"), ("edgeTargetField", .str "target"),
       ("nodeSize", .num 15), ("showLabels", .bool true), ("layoutType", .str "force")]⟩),
    ("networkDataSim", ⟨"Network Data Simulation", 0, 1,
      [("name", .str ""), ("networkType", .str "social"), ("nodeCount", .num 8),
       ("connectivity", .num (3/10)), ("includeAttributes", .bool true)]⟩) ]

/-- Registry lookup `NODE_TYPES[type]`. -/
def lookupType (type : String) : Option NodeType :=
  (NODE_TYPES.find? (fun t => t.1 = type)).map (fun t => t.2)

/-- Object spread `\x7b...a, ...b\x7d`: keys of `a` in order, each overridden by
the value from `b` when `b` has the key, followed by the keys of `b` that `a`
lacks, in the order of `b`. -/
def mergeConfig (a b : Config) : Config :=
  a.map (fun f => (f.1, (lookupField b f.1).getD f.2)) ++
    b.filter (fun f => (lookupField a f.1).isNone)

/-! ### The graph store (class FlowEditor)

Nodes and links live in insertion-ordered JavaScript `Map`s keyed by id;
both are modelled as lists of entries where `mapSet` gives Map.set semantics
(overwrite in place when the key exists, append otherwise) and removal
filters the key out.  The `element` fields holding SVG handles and the
rendering calls are omitted; the per-type auxiliary state bags
(`debugOutputs`, `accumulatedData`, `networkData`) are modelled separately
with the handler that owns each, since no store operation other than their
owner reads them. -/

/-- A node owned by the graph store. -/
structure Node where
  id : String
  type : String
  x : ℚ
  y : ℚ
  config : Config
  inputs : ℕ
  outputs : ℕ

/-- A directed link between node ports. -/
structure Link where
  id : String
  source : String
  sourcePort : ℕ
  target : String
  targetPort : ℕ

/-- The mutable editor state: the two id-keyed maps and the id counters. -/
structure EditorState where
  nodes : List Node
  links : List Link
  nodeCounter : ℕ
  linkCounter : ℕ

def emptyEditor : EditorState := ⟨[], [], 0, 0⟩

/-- `Map.set` keyed by `key`: overwrite the existing entry in place, else
append. -/
def mapSet {α : Type} (key : α → String) (entries : List α) (a : α) : List α :=
  if entries.any (fun e => key e = key a) then
    entries.map (fun e => if key e = key a then a else e)
  else entries ++ [a]

/-- `this.nodes.get(id)` via the id key. -/
def findNode (s : EditorState) (id : String) : Option Node :=
  s.nodes.find? (fun n => n.id = id)

/-- The id string `node_${k}`. -/
def mkNodeId (k : ℕ) : String := "node_" ++ natStr k

/-- The id string `link_${k}`. -/
def mkLinkId (k : ℕ) : String := "link_" ++ natStr k

/-- `createNode(type, x, y, config)`: pre-increments the node counter, then
fails (returns null) on an unknown type; otherwise merges the type defaults
with the overrides, copies the port counts and inserts the node. -/
def createNode (s : EditorState) (type : String) (x y : ℚ) (config : Config) :
    Option Node × EditorState :=
  let counter := s.nodeCounter + 1
  let nodeId := mkNodeId counter
  match lookupType type with
  | none => (none, { s with nodeCounter := counter })
  | some nt =>
    let node : Node :=
      { id := nodeId, type := type, x := x, y := y,
        config := mergeConfig nt.defaults config,
        inputs := nt.inputs, outputs := nt.outputs }
    (some node,
     { s with nodeCounter := counter, nodes := mapSet Node.id s.nodes node })

/-- `createConnection(sourceNode, sourcePort, targetNode, targetPort)`:
unconditionally builds the link from the given node objects and inserts it;
there is no validation of any kind and no null return. -/
def createConnection (s : EditorState) (sourceNode : Node) (sourcePort : ℕ)
    (targetNode : Node) (targetPort : ℕ) : Link × EditorState :=
  let counter := s.linkCounter + 1
  let link : Link :=
    { id := mkLinkId counter, source := sourceNode.id, sourcePort := sourcePort,
      target := targetNode.id, targetPort := targetPort }
  (link, { s with linkCounter := counter, links := mapSet Link.id s.links link })

/-- The commit step of `onConnectionMouseUp` (lines 249-273): the target node
is resolved from the store by the id on the released port element, and
`createConnection` runs only when it exists and is not the node the gesture
started from (object identity in the code; node objects are unique per id).
The source node is the object captured by `startConnection`, which is not
re-resolved from the store. -/
def connectionMouseUp (s : EditorState) (startNode : Node) (startPort : ℕ)
    (targetNodeId : String) (targetPortIndex : ℕ) : EditorState :=
  match findNode s targetNodeId with
  | some targetNode =>
    if targetNode.id = startNode.id then s
    else (createConnection s startNode startPort targetNode targetPortIndex).2
  | none => s

/-- `deleteLink(linkId)`: Map.delete on the link map. -/
def deleteLink (s : EditorState) (linkId : String) : EditorState :=
  { s with links := s.links.filter (fun l => ¬ l.id = linkId) }

/-- `deleteNode(nodeId)`: no-op if absent; otherwise collects every link whose
source or target equals the id, deletes each, and removes the node.  The
clearing of auxiliary visual state and the DOM removals are rendering-only. -/
def deleteNode (s : EditorState) (nodeId : String) : EditorState :=
  match findNode s nodeId with
  | none => s
  | some _ =>
    let linksToDelete := s.links.filter (fun l => l.source = nodeId ∨ l.target = nodeId)
    let s1 := linksToDelete.foldl (fun st l => deleteLink st l.id) s
    { s1 with nodes := s1.nodes.filter (fun n => ¬ n.id = nodeId) }

/-- `moveNode(node, x, y)`: updates the stored position (link geometry updates
are rendering-only). -/
def moveNode (s : EditorState) (nodeId : String) (x y : ℚ) : EditorState :=
  { s with nodes := s.nodes.map (fun n => if n.id = nodeId then { n with x := x, y := y } else n) }

/-- `clearAll()`: empties both maps; the id counters are not reset. -/
def clearAll (s : EditorState) : EditorState :=
  { s with nodes := [], links := [] }

/-! ### Flow serialization (exportFlow / importFlow)

`exportFlow` serializes the store to JSON; `importFlow` parses a JSON string
and rebuilds the store.  The document is embedded structurally: an
`Option FlowDoc` where `none` is a string `JSON.parse` throws on, and inside a
parsed document each of the two arrays may be missing (`none`), in which case
the corresponding `forEach` throws a TypeError that the surrounding
`try/catch` swallows, keeping every mutation already performed.
`JSON.stringify` followed by `JSON.parse` is the identity on exported
documents, so the round trip composes `exportFlow` with `importFlow`
directly. -/

/-- One serialized node: id, type, position and a copy of the config. -/
structure FlowNodeData where
  id : String
  type : String
  x : ℚ
  y : ℚ
  config : Config

/-- One serialized link: endpoint ids and port indices. -/
structure FlowLinkData where
  source : String
  sourcePort : ℕ
  target : String
  targetPort : ℕ

/-- A parsed flow document; a field is `none` when the document lacks it. -/
structure FlowDoc where
  nodes : Option (List FlowNodeData)
  links : Option (List FlowLinkData)

/-- The serialized shape of one node. -/
def exportNodeData (n : Node) : FlowNodeData := ⟨n.id, n.type, n.x, n.y, n.config⟩

/-- The serialized shape of one link. -/
def exportLinkData (l : Link) : FlowLinkData := ⟨l.source, l.sourcePort, l.target, l.targetPort⟩

/-- `exportFlow()`: maps the node map values and the link map values, in
insertion order, to the serialized shape. -/
def exportFlow (s : EditorState) : FlowDoc :=
  { nodes := some (s.nodes.map exportNodeData),
    links := some (s.links.map exportLinkData) }

/-- The node-recreation pass of `importFlow`: each entry goes through
`createNode`, which assigns a fresh counter-derived id; the serialized id is
not passed on. -/
def importNodes (s : EditorState) (nodeDatas : List FlowNodeData) : EditorState :=
  nodeDatas.foldl (fun st nd => (createNode st nd.type nd.x nd.y nd.config).2) s

/-- The link-recreation pass of `importFlow` (a sequential forEach): both
endpoints are looked up by the serialized (original) id among the freshly
created nodes and the link is silently skipped when either lookup fails. -/
def importLinks (s : EditorState) : List FlowLinkData → EditorState
  | [] => s
  | ld :: lds =>
    match findNode s ld.source, findNode s ld.target with
    | some sn, some tn =>
      importLinks (createConnection s sn ld.sourcePort tn ld.targetPort).2 lds
    | _, _ => importLinks s lds

/-- `importFlow(flowData)`: parse, then `clearAll`, then nodes, then links;
any exception is caught after the mutations already made. -/
def importFlow (s : EditorState) (flowData : Option FlowDoc) : EditorState :=
  match flowData with
  | none => s
  | some flow =>
    let s1 := clearAll s
    match flow.nodes with
    | none => s1
    | some nodeDatas =>
      let s2 := importNodes s1 nodeDatas
      match flow.links with
      | none => s2
      | some linkDatas => importLinks s2 linkDatas

/-! ### Structural invariants and basic lemmas about the store -/

/-- Every node id in the store was minted by a counter value at most the
current one.  This holds for every reachable state and is what makes a
`Map.set` with a freshly minted id an append. -/
def CounterDominates (s : EditorState) : Prop :=
  ∀ n ∈ s.nodes, ∃ k, 1 ≤ k ∧ k ≤ s.nodeCounter ∧ n.id = mkNodeId k

/-- The link-map analogue of `CounterDominates`. -/
def LinkCounterDominates (s : EditorState) : Prop :=
  ∀ l ∈ s.links, ∃ k, 1 ≤ k ∧ k ≤ s.linkCounter ∧ l.id = mkLinkId k

/-- The invariant of claim C4: each link endpoint references a node currently
present in the store. -/
def linksValid (s : EditorState) : Prop :=
  ∀ l ∈ s.links,
    (∃ n ∈ s.nodes, n.id = l.source) ∧ (∃ n ∈ s.nodes, n.id = l.target)

theorem mkNodeId_injective : Function.Injective mkNodeId := fun _ _ h =>
  natStr_injective (string_append_right_injective "node_" h)

theorem mkLinkId_injective : Function.Injective mkLinkId := fun _ _ h =>
  natStr_injective (string_append_right_injective "link_" h)

theorem mapSet_eq_append {α : Type} (key : α → String) (entries : List α) (a : α)
    (h : ∀ e ∈ entries, key e ≠ key a) : mapSet key entries a = entries ++ [a] := by
  have : entries.any (fun e => key e = key a) = false := by
    simp only [List.any_eq_false, decide_eq_true_eq]
    exact h
  simp [mapSet, this]

theorem mem_mapSet {α : Type} (key : α → String) (entries : List α) (a : α)
    (e : α) (he : e ∈ mapSet key entries a) : e ∈ entries ∨ e = a := by
  by_cases hc : (entries.any fun x => key x = key a) = true
  · rw [mapSet, if_pos hc] at he
    obtain ⟨x, hx, hxe⟩ := List.mem_map.mp he
    by_cases hk : key x = key a
    · rw [if_pos hk] at hxe
      exact Or.inr hxe.symm
    · rw [if_neg hk] at hxe
      exact Or.inl (hxe ▸ hx)
  · rw [mapSet, if_neg hc] at he
    rcases List.mem_append.mp he with h | h
    · exact Or.inl h
    · exact Or.inr (List.mem_singleton.mp h)

theorem mapSet_preserves_key {α : Type} (key : α → String) (entries : List α) (a : α)
    (kv : String) (h : ∃ e ∈ entries, key e = kv) :
    ∃ e ∈ mapSet key entries a, key e = kv := by
  obtain ⟨e, he, hkey⟩ := h
  by_cases hc : entries.any (fun x => key x = key a)
  · simp only [mapSet, hc, if_pos]
    by_cases hk : key e = key a
    · exact ⟨a, List.mem_map.mpr ⟨e, he, by simp [hk]⟩, by rw [← hk, hkey]⟩
    · exact ⟨e, List.mem_map.mpr ⟨e, he, by simp [hk]⟩, hkey⟩
  · exact ⟨e, by simp [mapSet, hc, List.mem_append, he], hkey⟩

theorem mapSet_self_mem {α : Type} (key : α → String) (entries : List α) (a : α)
    (h : ∀ e ∈ entries, key e ≠ key a) : a ∈ mapSet key entries a := by
  rw [mapSet_eq_append key entries a h]
  simp

theorem findNode_eq_some {s : EditorState} {id : String} {n : Node}
    (h : findNode s id = some n) : n ∈ s.nodes ∧ n.id = id := by
  refine ⟨List.mem_of_find?_eq_some h, ?_⟩
  have := List.find?_some h
  simpa using this

theorem findNode_isSome_iff (s : EditorState) (id : String) :
    (findNode s id).isSome ↔ ∃ n ∈ s.nodes, n.id = id := by
  constructor
  · intro h
    obtain ⟨n, hn⟩ := Option.isSome_iff_exists.mp h
    obtain ⟨hmem, hid⟩ := findNode_eq_some hn
    exact ⟨n, hmem, hid⟩
  · intro ⟨n, hmem, hid⟩
    rw [Option.isSome_iff_exists]
    have : ∃ m, findNode s id = some m := by
      rw [← Option.isSome_iff_exists]
      rw [findNode, List.find?_isSome]
      exact ⟨n, hmem, by simp [hid]⟩
    exact this

/-! ### Behaviour of the individual operations -/

/-- The node `createNode` builds for a known type. -/
def builtNode (s : EditorState) (type : String) (x y : ℚ) (config : Config)
    (nt : NodeType) : Node :=
  { id := mkNodeId (s.nodeCounter + 1), type := type, x := x, y := y,
    config := mergeConfig nt.defaults config,
    inputs := nt.inputs, outputs := nt.outputs }

theorem createNode_unknown (s : EditorState) (t : String) (x y : ℚ) (c : Config)
    (h : lookupType t = none) :
    createNode s t x y c = (none, { s with nodeCounter := s.nodeCounter + 1 }) := by
  simp [createNode, h]

theorem createNode_known (s : EditorState) (t : String) (x y : ℚ) (c : Config)
    (nt : NodeType) (h : lookupType t = some nt) :
    createNode s t x y c =
      (some (builtNode s t x y c nt),
       { s with nodeCounter := s.nodeCounter + 1,
                nodes := mapSet Node.id s.nodes (builtNode s t x y c nt) }) := by
  simp [createNode, h, builtNode]

theorem createNode_nodeCounter (s : EditorState) (t : String) (x y : ℚ) (c : Config) :
    (createNode s t x y c).2.nodeCounter = s.nodeCounter + 1 := by
  cases h : lookupType t with
  | none => rw [createNode_unknown s t x y c h]
  | some nt => rw [createNode_known s t x y c nt h]

theorem createNode_links (s : EditorState) (t : String) (x y : ℚ) (c : Config) :
    (createNode s t x y c).2.links = s.links ∧
      (createNode s t x y c).2.linkCounter = s.linkCounter := by
  cases h : lookupType t with
  | none => rw [createNode_unknown s t x y c h]; exact ⟨rfl, rfl⟩
  | some nt => rw [createNode_known s t x y c nt h]; exact ⟨rfl, rfl⟩

theorem counterDominates_fresh (s : EditorState) (h : CounterDominates s)
    (n : Node) (hn : n ∈ s.nodes) : n.id ≠ mkNodeId (s.nodeCounter + 1) := by
  obtain ⟨k, hk1, hk2, hkid⟩ := h n hn
  rw [hkid]
  intro heq
  have := mkNodeId_injective heq
  omega

theorem createNode_known_append (s : EditorState) (t : String) (x y : ℚ) (c : Config)
    (nt : NodeType) (h : lookupType t = some nt) (hdom : CounterDominates s) :
    (createNode s t x y c).2.nodes = s.nodes ++ [builtNode s t x y c nt] := by
  rw [createNode_known s t x y c nt h]
  exact mapSet_eq_append Node.id s.nodes _
    (fun e he => counterDominates_fresh s hdom e he)

theorem createNode_counterDominates (s : EditorState) (t : String) (x y : ℚ) (c : Config)
    (hdom : CounterDominates s) : CounterDominates (createNode s t x y c).2 := by
  cases h : lookupType t with
  | none =>
    rw [createNode_unknown s t x y c h]
    intro n hn
    obtain ⟨k, h1, h2, h3⟩ := hdom n hn
    exact ⟨k, h1, Nat.le_succ_of_le h2, h3⟩
  | some nt =>
    rw [createNode_known s t x y c nt h]
    intro n hn
    rcases mem_mapSet Node.id s.nodes _ n hn with hmem | heq
    · obtain ⟨k, h1, h2, h3⟩ := hdom n hmem
      exact ⟨k, h1, Nat.le_succ_of_le h2, h3⟩
    · exact ⟨s.nodeCounter + 1, Nat.le_add_left 1 s.nodeCounter, le_rfl, by rw [heq]; rfl⟩

/-- The link `createConnection` builds. -/
def builtLink (s : EditorState) (sourceNode : Node) (sourcePort : ℕ)
    (targetNode : Node) (targetPort : ℕ) : Link :=
  { id := mkLinkId (s.linkCounter + 1), source := sourceNode.id,
    sourcePort := sourcePort, target := targetNode.id, targetPort := targetPort }

theorem createConnection_eq (s : EditorState) (sn : Node) (sp : ℕ) (tn : Node) (tp : ℕ) :
    createConnection s sn sp tn tp =
      (builtLink s sn sp tn tp,
       { s with linkCounter := s.linkCounter + 1,
                links := mapSet Link.id s.links (builtLink s sn sp tn tp) }) := rfl

theorem linkCounterDominates_fresh (s : EditorState) (h : LinkCounterDominates s)
    (l : Link) (hl : l ∈ s.links) : l.id ≠ mkLinkId (s.linkCounter + 1) := by
  obtain ⟨k, hk1, hk2, hkid⟩ := h l hl
  rw [hkid]
  intro heq
  have := mkLinkId_injective heq
  omega

theorem createConnection_links_append (s : EditorState) (sn : Node) (sp : ℕ)
    (tn : Node) (tp : ℕ) (hdom : LinkCounterDominates s) :
    (createConnection s sn sp tn tp).2.links = s.links ++ [builtLink s sn sp tn tp] := by
  rw [createConnection_eq]
  exact mapSet_eq_append Link.id s.links _
    (fun e he => linkCounterDominates_fresh s hdom e he)

theorem createConnection_linkCounterDominates (s : EditorState) (sn : Node) (sp : ℕ)
    (tn : Node) (tp : ℕ) (hdom : LinkCounterDominates s) :
    LinkCounterDominates (createConnection s sn sp tn tp).2 := by
  rw [createConnection_eq]
  intro l hl
  rcases mem_mapSet Link.id s.links _ l hl with hmem | heq
  · obtain ⟨k, h1, h2, h3⟩ := hdom l hmem
    exact ⟨k, h1, Nat.le_succ_of_le h2, h3⟩
  · exact ⟨s.linkCounter + 1, Nat.le_add_left 1 s.linkCounter, le_rfl, by rw [heq]; rfl⟩

/-- Folding `deleteLink` over a list of links removes exactly the links whose
id occurs in the list. -/
theorem foldl_deleteLink_links (ds : List Link) (s : EditorState) :
    (ds.foldl (fun st l => deleteLink st l.id) s).links =
      s.links.filter (fun l => !(ds.any (fun d => d.id = l.id))) := by
  induction ds generalizing s with
  | nil => simp
  | cons d ds ih =>
    rw [List.foldl_cons, ih]
    simp only [deleteLink, List.filter_filter]
    apply List.filter_congr
    intro l _
    by_cases h1 : l.id = d.id
    · have h1' : d.id = l.id := h1.symm
      simp [h1']
    · have h1' : ¬ d.id = l.id := fun h => h1 h.symm
      simp [h1, h1']

theorem foldl_deleteLink_rest (ds : List Link) (s : EditorState) :
    (ds.foldl (fun st l => deleteLink st l.id) s).nodes = s.nodes ∧
      (ds.foldl (fun st l => deleteLink st l.id) s).nodeCounter = s.nodeCounter ∧
      (ds.foldl (fun st l => deleteLink st l.id) s).linkCounter = s.linkCounter := by
  induction ds generalizing s with
  | nil => exact ⟨rfl, rfl, rfl⟩
  | cons d ds ih => exact ih (deleteLink s d.id)

/-- Characterization of the links surviving `deleteNode`: every survivor is an
original link that does not reference the deleted node. -/
theorem deleteNode_links_sub (s : EditorState) (nodeId : String)
    (hpresent : (findNode s nodeId).isSome)
    (l : Link) (hl : l ∈ (deleteNode s nodeId).links) :
    l ∈ s.links ∧ ¬ l.source = nodeId ∧ ¬ l.target = nodeId := by
  obtain ⟨n, hn⟩ := Option.isSome_iff_exists.mp hpresent
  rw [deleteNode, hn] at hl
  simp only at hl
  rw [foldl_deleteLink_links] at hl
  have hmem := List.mem_of_mem_filter hl
  have hcond := List.of_mem_filter hl
  have hcond' : ∀ x ∈ s.links.filter (fun x => x.source = nodeId ∨ x.target = nodeId),
      ¬ (x.id = l.id) := by
    intro x hx
    have hfalse : ((s.links.filter (fun x => x.source = nodeId ∨ x.target = nodeId)).any
        (fun d => d.id = l.id)) = false := by
      simpa using hcond
    have := List.any_eq_false.mp hfalse x hx
    simpa using this
  refine ⟨hmem, ?_, ?_⟩ <;>
  · intro heq
    have hin : l ∈ s.links.filter (fun x => x.source = nodeId ∨ x.target = nodeId) := by
      apply List.mem_filter.mpr
      refine ⟨hmem, ?_⟩
      simp [heq]
    exact hcond' l hin rfl

theorem deleteNode_nodes (s : EditorState) (nodeId : String)
    (hpresent : (findNode s nodeId).isSome) :
    (deleteNode s nodeId).nodes = s.nodes.filter (fun n => ¬ n.id = nodeId) := by
  obtain ⟨n, hn⟩ := Option.isSome_iff_exists.mp hpresent
  rw [deleteNode, hn]
  simp only
  rw [(foldl_deleteLink_rest _ s).1]

/-! ### Round-trip behaviour of importFlow on exported documents -/

/-- The endpoint quadruple of a link, the data `exportFlow` serializes. -/
def linkEnds (l : Link) : String × ℕ × String × ℕ :=
  (l.source, l.sourcePort, l.target, l.targetPort)

/-- A node survives the import pass unchanged exactly when its type resolves,
its config is a fixed point of the defaults merge, its port counts agree with
its type, and its id is the one the counter will mint. -/
theorem importNodes_roundtrip (ns : List Node) (t : EditorState)
    (hdom : CounterDominates t)
    (hT : ∀ n ∈ ns, ∃ nt, lookupType n.type = some nt ∧
            mergeConfig nt.defaults n.config = n.config ∧
            n.inputs = nt.inputs ∧ n.outputs = nt.outputs)
    (hids : ns.map Node.id = (List.range' (t.nodeCounter + 1) ns.length).map mkNodeId) :
    (importNodes t (ns.map exportNodeData)).nodes = t.nodes ++ ns ∧
    (importNodes t (ns.map exportNodeData)).nodeCounter = t.nodeCounter + ns.length ∧
    (importNodes t (ns.map exportNodeData)).links = t.links ∧
    (importNodes t (ns.map exportNodeData)).linkCounter = t.linkCounter ∧
    CounterDominates (importNodes t (ns.map exportNodeData)) := by
  induction ns generalizing t with
  | nil => exact ⟨by simp [importNodes], by simp [importNodes], rfl, rfl, hdom⟩
  | cons n ns ih =>
    obtain ⟨nt, htype, hcfg, hin, hout⟩ := hT n (List.mem_cons_self n ns)
    have hstep : importNodes t ((n :: ns).map exportNodeData) =
        importNodes (createNode t n.type n.x n.y n.config).2 (ns.map exportNodeData) := by
      simp [importNodes, exportNodeData]
    rw [List.length_cons, List.range'_succ, List.map_cons, List.map_cons] at hids
    have hid : n.id = mkNodeId (t.nodeCounter + 1) := (List.cons.injEq _ _ _ _ ▸ hids).1
    have hidsTail : ns.map Node.id =
        (List.range' (t.nodeCounter + 1 + 1) ns.length).map mkNodeId :=
      (List.cons.injEq _ _ _ _ ▸ hids).2
    have hbuilt : builtNode t n.type n.x n.y n.config nt = n := by
      cases n with
      | mk id type x y config inputs outputs =>
        simp only [builtNode]
        simp only at hid hcfg hin hout
        rw [hid, hcfg, hin, hout]
    set t' := (createNode t n.type n.x n.y n.config).2 with ht'
    have hnodes' : t'.nodes = t.nodes ++ [n] := by
      rw [ht', createNode_known_append t n.type n.x n.y n.config nt htype hdom, hbuilt]
    have hcounter' : t'.nodeCounter = t.nodeCounter + 1 :=
      createNode_nodeCounter t n.type n.x n.y n.config
    have hlinks' := createNode_links t n.type n.x n.y n.config
    have hdom' : CounterDominates t' :=
      createNode_counterDominates t n.type n.x n.y n.config hdom
    have hidsTail' : ns.map Node.id =
        (List.range' (t'.nodeCounter + 1) ns.length).map mkNodeId := by
      rw [hcounter']; exact hidsTail
    obtain ⟨c1, c2, c3, c4, c5⟩ :=
      ih t' hdom' (fun m hm => hT m (List.mem_cons_of_mem n hm)) hidsTail'
    rw [hstep]
    refine ⟨?_, ?_, ?_, ?_, c5⟩
    · rw [c1, hnodes', List.append_assoc]; rfl
    · rw [c2, hcounter', List.length_cons]; omega
    · rw [c3, hlinks'.1]
    · rw [c4, hlinks'.2]

/-- The link-recreation pass reproduces each serialized endpoint quadruple
when both endpoints resolve in the freshly imported node map. -/
theorem importLinks_roundtrip (ls : List Link) (u : EditorState)
    (hdom : LinkCounterDominates u)
    (hvalid : ∀ l ∈ ls, (∃ n ∈ u.nodes, n.id = l.source) ∧ (∃ n ∈ u.nodes, n.id = l.target)) :
    (importLinks u (ls.map exportLinkData)).links.map linkEnds =
        u.links.map linkEnds ++ ls.map linkEnds ∧
    (importLinks u (ls.map exportLinkData)).nodes = u.nodes ∧
    (importLinks u (ls.map exportLinkData)).nodeCounter = u.nodeCounter := by
  induction ls generalizing u with
  | nil => exact ⟨by simp [importLinks], rfl, rfl⟩
  | cons l ls ih =>
    obtain ⟨hsrc, htgt⟩ := hvalid l (List.mem_cons_self l ls)
    obtain ⟨sn, hsn⟩ := Option.isSome_iff_exists.mp ((findNode_isSome_iff u l.source).mpr hsrc)
    obtain ⟨tn, htn⟩ := Option.isSome_iff_exists.mp ((findNode_isSome_iff u l.target).mpr htgt)
    have hsnid := (findNode_eq_some hsn).2
    have htnid := (findNode_eq_some htn).2
    have hstep : importLinks u ((l :: ls).map exportLinkData) =
        importLinks (createConnection u sn l.sourcePort tn l.targetPort).2
          (ls.map exportLinkData) := by
      simp [importLinks, exportLinkData, hsn, htn]
    set u' := (createConnection u sn l.sourcePort tn l.targetPort).2 with hu'
    have hlinks' : u'.links = u.links ++ [builtLink u sn l.sourcePort tn l.targetPort] := by
      rw [hu']; exact createConnection_links_append u sn l.sourcePort tn l.targetPort hdom
    have hnodes' : u'.nodes = u.nodes := by rw [hu', createConnection_eq]
    have hdom' : LinkCounterDominates u' :=
      createConnection_linkCounterDominates u sn l.sourcePort tn l.targetPort hdom
    have hvalid' : ∀ m ∈ ls,
        (∃ n ∈ u'.nodes, n.id = m.source) ∧ (∃ n ∈ u'.nodes, n.id = m.target) := by
      rw [hnodes']
      exact fun m hm => hvalid m (List.mem_cons_of_mem l hm)
    obtain ⟨c1, c2, c3⟩ := ih u' hdom' hvalid'
    rw [hstep]
    refine ⟨?_, by rw [c2, hnodes'], by rw [c3, hu', createConnection_eq]⟩
    rw [c1, hlinks']
    simp only [List.map_append, List.map_cons, List.map_nil, List.append_assoc]
    congr 2
    simp [linkEnds, builtLink, hsnid, htnid]

/-! ### Claim C1 -/

/-- A concrete reachable store whose single node id is not `node_1` (its
creation was preceded by another, since-deleted node, so the counter is 2). -/
def gapState : EditorState :=
  { nodes := [⟨"node_2", "debug", 5, 6,
      [("name", .str ""), ("complete", .str "payload"), ("console", .bool true)], 1, 0⟩],
    links := [],
    nodeCounter := 2, linkCounter := 0 }

/-- A concrete reachable store with nodes `node_2`, `node_3` and a link
between them (node_1 was deleted). -/
def gapLinkState : EditorState :=
  { nodes := [⟨"node_2", "exampleData", 1, 2,
      [("name", .str ""), ("dataType", .str "object"), ("payload", .str "1")], 0, 1⟩,
      ⟨"node_3", "debug", 3, 4,
      [("name", .str ""), ("complete", .str "payload"), ("console", .bool true)], 1, 0⟩],
    links := [⟨"link_1", "node_2", 0, "node_3", 0⟩],
    nodeCounter := 3, linkCounter := 1 }

/-- C1, counterexample: exporting `gapState` and importing the result into an
empty store does not keep the original node id: `createNode` mints a fresh
counter id (`node_1`) instead of the serialized `node_2`.  On `gapLinkState`
both nodes are renumbered and the link, which is re-resolved by the original
ids, is silently dropped: the round trip loses all link endpoint pairs. -/
theorem importFlow_renumbers_ids :
    (importFlow emptyEditor (some (exportFlow gapState))).nodes.map Node.id = ["node_1"] ∧
    gapState.nodes.map Node.id = ["node_2"] ∧
    (importFlow emptyEditor (some (exportFlow gapLinkState))).links = [] ∧
    gapLinkState.links.map linkEnds = [("node_2", 0, "node_3", 0)] := by
  refine ⟨?_, rfl, ?_, rfl⟩ <;> rfl

/-- C1, amended: the round trip through `exportFlow` and `importFlow` into an
empty store reproduces the nodes (ids, positions, configs, port counts) and
every link endpoint pair exactly, provided the original node ids are exactly
the contiguous counter ids `node_1 .. node_n` in insertion order, every node
type resolves in the registry with its config a fixed point of the defaults
merge (as `createNode` guarantees), and every link endpoint references a
present node.  Without the contiguity assumption the imported ids differ and
links are dropped (see the counterexample). -/
theorem importFlow_export_roundtrip_preserves (s : EditorState)
    (hids : s.nodes.map Node.id = (List.range' 1 s.nodes.length).map mkNodeId)
    (hT : ∀ n ∈ s.nodes, ∃ nt, lookupType n.type = some nt ∧
            mergeConfig nt.defaults n.config = n.config ∧
            n.inputs = nt.inputs ∧ n.outputs = nt.outputs)
    (hlinks : ∀ l ∈ s.links,
      (∃ n ∈ s.nodes, n.id = l.source) ∧ (∃ n ∈ s.nodes, n.id = l.target)) :
    (importFlow emptyEditor (some (exportFlow s))).nodes = s.nodes ∧
    (importFlow emptyEditor (some (exportFlow s))).links.map linkEnds =
      s.links.map linkEnds := by
  have hred : importFlow emptyEditor (some (exportFlow s)) =
      importLinks (importNodes emptyEditor (s.nodes.map exportNodeData))
        (s.links.map exportLinkData) := rfl
  have hdom0 : CounterDominates emptyEditor := by
    intro n hn
    simp [emptyEditor] at hn
  obtain ⟨n1, n2, n3, n4, n5⟩ :=
    importNodes_roundtrip s.nodes emptyEditor hdom0 hT hids
  set u := importNodes emptyEditor (s.nodes.map exportNodeData) with hu
  have hunodes : u.nodes = s.nodes := by rw [n1]; rfl
  have hulinks : u.links = [] := by rw [n3]; rfl
  have hldom : LinkCounterDominates u := by
    intro l hl
    rw [hulinks] at hl
    simp at hl
  have hvalid : ∀ l ∈ s.links,
      (∃ n ∈ u.nodes, n.id = l.source) ∧ (∃ n ∈ u.nodes, n.id = l.target) := by
    rw [hunodes]; exact hlinks
  obtain ⟨l1, l2, l3⟩ := importLinks_roundtrip s.links u hldom hvalid
  rw [hred]
  refine ⟨by rw [l2, hunodes], ?_⟩
  rw [l1, hulinks]
  simp

/-- The registry defaults for a type key (empty for unknown keys). -/
def defaultsOf (type : String) : Config :=
  ((lookupType type).getD ⟨"", 0, 0, []⟩).defaults

/-- A store as normal interaction produces it: two nodes created in order and
one link wired between them. -/
def roundtripWitnessState : EditorState :=
  { nodes := [⟨"node_1", "exampleData", 10, 20, defaultsOf "exampleData", 0, 1⟩,
      ⟨"node_2", "debug", 30, 40, defaultsOf "debug", 1, 0⟩],
    links := [⟨"link_1", "node_1", 0, "node_2", 0⟩],
    nodeCounter := 2, linkCounter := 1 }

/-- Witness: the amended C1 round trip evaluated on `roundtripWitnessState`. -/
theorem importFlow_export_roundtrip_preserves_witness :
    (importFlow emptyEditor (some (exportFlow roundtripWitnessState))).nodes =
        roundtripWitnessState.nodes ∧
    (importFlow emptyEditor (some (exportFlow roundtripWitnessState))).links.map linkEnds =
        roundtripWitnessState.links.map linkEnds :=
  importFlow_export_roundtrip_preserves roundtripWitnessState
    (by rfl)
    (by
      intro n hn
      simp only [roundtripWitnessState, List.mem_cons, List.not_mem_nil, or_false] at hn
      rcases hn with rfl | rfl
      · exact ⟨(lookupType "exampleData").getD ⟨"", 0, 0, []⟩, rfl, rfl, rfl, rfl⟩
      · exact ⟨(lookupType "debug").getD ⟨"", 0, 0, []⟩, rfl, rfl, rfl, rfl⟩)
    (by
      intro l hl
      simp only [roundtripWitnessState, List.mem_cons, List.not_mem_nil, or_false] at hl
      rcases hl with rfl
      constructor
      · exact ⟨⟨"node_1", "exampleData", 10, 20, defaultsOf "exampleData", 0, 1⟩,
          List.mem_cons_self _ _, rfl⟩
      · exact ⟨⟨"node_2", "debug", 30, 40, defaultsOf "debug", 1, 0⟩,
          List.mem_cons_of_mem _ (List.mem_cons_self _ _), rfl⟩)

/-! ### Claim C2 -/

/-- A function node object used both as a live store member and as a stale
captured gesture source. -/
def fnNode : Node :=
  ⟨"node_1", "function", 0, 0, defaultsOf "function", 1, 1⟩

/-- A node object whose id is absent from `fnState`. -/
def ghostNode : Node :=
  ⟨"node_9", "function", 0, 0, defaultsOf "function", 1, 1⟩

def fnState : EditorState := { nodes := [fnNode], links := [], nodeCounter := 1, linkCounter := 0 }

/-- C2, counterexample: `createConnection` does not return null in any of the
three cases the claim names; it creates the link unconditionally.  With
source node = target node and port index 5 on a node declaring 1 output and
1 input, a self-link with out-of-range ports is created; with a source node
object absent from the store, a dangling link is created. -/
theorem createConnection_no_validation :
    (createConnection fnState fnNode 5 fnNode 5).2.links.map linkEnds =
      [("node_1", 5, "node_1", 5)] ∧
    fnNode.outputs = 1 ∧ fnNode.inputs = 1 ∧
    (createConnection fnState ghostNode 0 fnNode 0).2.links.map linkEnds =
      [("node_9", 0, "node_1", 0)] ∧
    findNode fnState ghostNode.id = none := by
  exact ⟨rfl, rfl, rfl, rfl, rfl⟩

/-- C2, amended: `createConnection` itself never fails and performs no
validation - it always inserts exactly one new link built verbatim from its
arguments; the rejection the claim describes lives one layer up, in the
release handler `onConnectionMouseUp`, which skips `createConnection` when
the target id does not resolve in the store or resolves to the gesture's
start node.  Port indices are never range-checked anywhere. -/
theorem createConnection_amended :
    (∀ s sn sp tn tp, LinkCounterDominates s →
      (createConnection s sn sp tn tp).2.links = s.links ++ [builtLink s sn sp tn tp]) ∧
    (∀ s startNode startPort tid tp, findNode s tid = none →
      connectionMouseUp s startNode startPort tid tp = s) ∧
    (∀ s startNode startPort tid tp tn, findNode s tid = some tn → tn.id = startNode.id →
      connectionMouseUp s startNode startPort tid tp = s) ∧
    (∀ s startNode startPort tid tp tn, findNode s tid = some tn → tn.id ≠ startNode.id →
      connectionMouseUp s startNode startPort tid tp =
        (createConnection s startNode startPort tn tp).2) := by
  refine ⟨fun s sn sp tn tp h => createConnection_links_append s sn sp tn tp h, ?_, ?_, ?_⟩
  · intro s startNode startPort tid tp h
    rw [connectionMouseUp, h]
  · intro s startNode startPort tid tp tn h hid
    rw [connectionMouseUp, h]
    simp [hid]
  · intro s startNode startPort tid tp tn h hid
    rw [connectionMouseUp, h]
    simp [hid]

/-- Witness for the amended C2, evaluated on concrete stores. -/
theorem createConnection_amended_witness :
    ((createConnection fnState fnNode 0 fnNode 0).2.links =
        fnState.links ++ [builtLink fnState fnNode 0 fnNode 0]) ∧
    connectionMouseUp fnState fnNode 0 "node_9" 0 = fnState ∧
    connectionMouseUp fnState fnNode 0 "node_1" 0 = fnState := by
  refine ⟨createConnection_amended.1 fnState fnNode 0 fnNode 0 ?_, ?_, ?_⟩
  · intro l hl
    simp [fnState] at hl
  · exact createConnection_amended.2.1 fnState fnNode 0 "node_9" 0 rfl
  · exact createConnection_amended.2.2.1 fnState fnNode 0 "node_1" 0 fnNode rfl rfl

/-! ### Claim C3 -/

/-- C3, counterexample: a parseable but malformed flow document does not
leave the previous graph state intact.  Importing the document with neither
array over `gapState` erases its node; importing a document with a nodes
array but no links array over `gapLinkState` recreates the two nodes but
drops the existing link - a partially applied import. -/
theorem importFlow_malformed_destroys_state :
    (importFlow gapState (some ⟨none, none⟩)).nodes = [] ∧
    gapState.nodes.map Node.id = ["node_2"] ∧
    (importFlow gapLinkState
      (some ⟨some (gapLinkState.nodes.map exportNodeData), none⟩)).nodes.length = 2 ∧
    (importFlow gapLinkState
      (some ⟨some (gapLinkState.nodes.map exportNodeData), none⟩)).links = [] ∧
    gapLinkState.links.length = 1 := by
  exact ⟨rfl, rfl, rfl, rfl, rfl⟩

/-- C3, amended: only a flow document that `JSON.parse` rejects aborts
the import before any mutation, leaving the graph intact.  A parseable document
is applied after `clearAll`, so a malformed-but-parseable document loses the
previous state: with no usable nodes array the store stays cleared, and with
a nodes array but no links array the nodes are imported and no links are -
the import applies partially instead of atomically. -/
theorem importFlow_error_behaviour :
    (∀ s, importFlow s none = s) ∧
    (∀ s (doc : FlowDoc), doc.nodes = none → importFlow s (some doc) = clearAll s) ∧
    (∀ s (nds : List FlowNodeData),
      importFlow s (some ⟨some nds, none⟩) = importNodes (clearAll s) nds) := by
  refine ⟨fun s => rfl, ?_, fun s nds => rfl⟩
  intro s doc h
  cases doc with
  | mk nodes links => cases h; rfl

/-- Witness for the amended C3 at concrete inputs. -/
theorem importFlow_error_behaviour_witness :
    importFlow gapState none = gapState ∧
    importFlow gapState (some ⟨none, some []⟩) = clearAll gapState ∧
    importFlow gapState (some ⟨some [], none⟩) = importNodes (clearAll gapState) [] :=
  ⟨importFlow_error_behaviour.1 gapState,
   importFlow_error_behaviour.2.1 gapState ⟨none, some []⟩ rfl,
   importFlow_error_behaviour.2.2 gapState []⟩

/-! ### Claim C4: the store operations and the endpoint-validity invariant -/

/-- The store mutations reachable from the interaction controller and the
toolbar, at the granularity the code invokes them. -/
inductive StoreOp where
  | create (type : String) (x y : ℚ) (config : Config)
  | connect (startNode : Node) (startPort : ℕ) (targetNodeId : String) (targetPortIndex : ℕ)
  | delNode (id : String)
  | delLink (id : String)
  | move (id : String) (x y : ℚ)
  | clear
  | importDoc (flowData : Option FlowDoc)

def applyOp (s : EditorState) : StoreOp → EditorState
  | .create t x y c => (createNode s t x y c).2
  | .connect n p tid tp => connectionMouseUp s n p tid tp
  | .delNode id => deleteNode s id
  | .delLink id => deleteLink s id
  | .move id x y => moveNode s id x y
  | .clear => clearAll s
  | .importDoc d => importFlow s d

/-- Side condition under which an operation keeps `linksValid`: the connect
gesture must be released while its captured start node is still present (the
code does not cancel the gesture when the node is deleted mid-drag). -/
def OpSafe (s : EditorState) : StoreOp → Prop
  | .connect startNode _ _ _ => ∃ n ∈ s.nodes, n.id = startNode.id
  | _ => True

theorem importNodes_links_eq (nds : List FlowNodeData) (t : EditorState) :
    (importNodes t nds).links = t.links := by
  induction nds generalizing t with
  | nil => rfl
  | cons nd nds ih =>
    show (importNodes (createNode t nd.type nd.x nd.y nd.config).2 nds).links = t.links
    rw [ih, (createNode_links t nd.type nd.x nd.y nd.config).1]

theorem createNode_preserves_presence (s : EditorState) (t : String) (x y : ℚ)
    (c : Config) (idv : String) (h : ∃ n ∈ s.nodes, n.id = idv) :
    ∃ n ∈ (createNode s t x y c).2.nodes, n.id = idv := by
  cases ht : lookupType t with
  | none => rw [createNode_unknown s t x y c ht]; exact h
  | some nt =>
    rw [createNode_known s t x y c nt ht]
    exact mapSet_preserves_key Node.id s.nodes _ idv h

theorem importLinks_preserves_linksValid (lds : List FlowLinkData) (u : EditorState)
    (h : linksValid u) : linksValid (importLinks u lds) := by
  induction lds generalizing u with
  | nil => exact h
  | cons ld lds ih =>
    rw [importLinks]
    cases hs : findNode u ld.source with
    | none => exact ih u h
    | some sn =>
      cases htg : findNode u ld.target with
      | none => exact ih u h
      | some tn =>
        apply ih
        intro l hl
        rw [createConnection_eq] at hl
        simp only at hl
        rcases mem_mapSet Link.id u.links _ l hl with hmem | heq
        · obtain ⟨h1, h2⟩ := h l hmem
          exact ⟨h1, h2⟩
        · subst heq
          refine ⟨⟨sn, (findNode_eq_some hs).1, rfl⟩, ⟨tn, (findNode_eq_some htg).1, rfl⟩⟩

/-- A stale-capture scenario: the gesture captured `fnNode` (`node_1`), which
has since been deleted; only `node_2` remains, and the counter remembers that
two nodes were created. -/
def staleState : EditorState :=
  { nodes := [⟨"node_2", "debug", 0, 0, defaultsOf "debug", 1, 0⟩],
    links := [], nodeCounter := 2, linkCounter := 0 }

/-- C4, counterexample: not every store operation preserves the
endpoint-validity invariant.  Releasing a connect gesture whose captured
start node was deleted mid-drag commits `createConnection` with the stale
node object: a link with source `node_1` is created although no node with
that id is present. -/
theorem connect_stale_breaks_invariant :
    (applyOp staleState (.connect fnNode 0 "node_2" 0)).links.map linkEnds =
      [("node_1", 0, "node_2", 0)] ∧
    (applyOp staleState (.connect fnNode 0 "node_2" 0)).nodes.map Node.id = ["node_2"] ∧
    ¬ linksValid (applyOp staleState (.connect fnNode 0 "node_2" 0)) := by
  refine ⟨rfl, rfl, ?_⟩
  intro h
  have hmem : (⟨"link_1", "node_1", 0, "node_2", 0⟩ : Link) ∈
      (applyOp staleState (.connect fnNode 0 "node_2" 0)).links := by
    have : (applyOp staleState (.connect fnNode 0 "node_2" 0)).links =
        [⟨"link_1", "node_1", 0, "node_2", 0⟩] := rfl
    rw [this]
    exact List.mem_cons_self _ _
  obtain ⟨⟨n, hn, hid⟩, -⟩ := h _ hmem
  have hnodes : (applyOp staleState (.connect fnNode 0 "node_2" 0)).nodes =
      [⟨"node_2", "debug", 0, 0, defaultsOf "debug", 1, 0⟩] := rfl
  rw [hnodes] at hn
  rcases List.mem_singleton.mp hn with rfl
  exact absurd hid (by decide)

/-- C4, amended: `deleteNode` on a present id removes the node and every link
referencing it, so a subsequent scan finds zero links with that source or
target; and every store operation preserves the invariant that link endpoints
reference present nodes, provided a connect gesture is not released after its
captured start node was deleted (the unguarded case of the counterexample). -/
theorem deleteNode_cascades_and_invariant_preserved :
    (∀ s id, (findNode s id).isSome →
      (∀ l ∈ (deleteNode s id).links, ¬ l.source = id ∧ ¬ l.target = id) ∧
      (∀ n ∈ (deleteNode s id).nodes, ¬ n.id = id)) ∧
    (∀ s op, linksValid s → OpSafe s op → linksValid (applyOp s op)) := by
  constructor
  · intro s id hpresent
    constructor
    · intro l hl
      obtain ⟨-, h1, h2⟩ := deleteNode_links_sub s id hpresent l hl
      exact ⟨h1, h2⟩
    · intro n hn
      rw [deleteNode_nodes s id hpresent] at hn
      have := List.of_mem_filter hn
      simpa using this
  · intro s op hvalid hsafe
    cases op with
    | create t x y c =>
      intro l hl
      have hlinks : (applyOp s (.create t x y c)).links = s.links :=
        (createNode_links s t x y c).1
      rw [hlinks] at hl
      obtain ⟨h1, h2⟩ := hvalid l hl
      exact ⟨createNode_preserves_presence s t x y c _ h1,
             createNode_preserves_presence s t x y c _ h2⟩
    | connect startNode sp tid tp =>
      show linksValid (connectionMouseUp s startNode sp tid tp)
      rw [connectionMouseUp]
      cases htid : findNode s tid with
      | none => exact hvalid
      | some tn =>
        by_cases hid : tn.id = startNode.id
        · simp only [hid, if_pos]
          exact hvalid
        · simp only [hid, if_neg, ite_false]
          intro l hl
          rw [createConnection_eq] at hl
          simp only at hl
          rcases mem_mapSet Link.id s.links _ l hl with hmem | heq
          · exact hvalid l hmem
          · subst heq
            exact ⟨hsafe, ⟨tn, (findNode_eq_some htid).1, rfl⟩⟩
    | delNode id =>
      show linksValid (deleteNode s id)
      cases hfind : findNode s id with
      | none => rw [deleteNode, hfind]; exact hvalid
      | some n =>
        have hpresent : (findNode s id).isSome := by rw [hfind]; rfl
        intro l hl
        obtain ⟨hmem, h1, h2⟩ := deleteNode_links_sub s id hpresent l hl
        obtain ⟨⟨n1, hn1, hid1⟩, ⟨n2, hn2, hid2⟩⟩ := hvalid l hmem
        rw [deleteNode_nodes s id hpresent]
        constructor
        · exact ⟨n1, List.mem_filter.mpr ⟨hn1, by simp [hid1, h1]⟩, hid1⟩
        · exact ⟨n2, List.mem_filter.mpr ⟨hn2, by simp [hid2, h2]⟩, hid2⟩
    | delLink id =>
      intro l hl
      have hmem := List.mem_of_mem_filter hl
      exact hvalid l hmem
    | move id x y =>
      intro l hl
      obtain ⟨⟨n1, hn1, hid1⟩, ⟨n2, hn2, hid2⟩⟩ := hvalid l hl
      constructor
      · refine ⟨if n1.id = id then { n1 with x := x, y := y } else n1,
          List.mem_map_of_mem _ hn1, ?_⟩
        by_cases h : n1.id = id
        · rw [if_pos h]; exact hid1
        · rw [if_neg h]; exact hid1
      · refine ⟨if n2.id = id then { n2 with x := x, y := y } else n2,
          List.mem_map_of_mem _ hn2, ?_⟩
        by_cases h : n2.id = id
        · rw [if_pos h]; exact hid2
        · rw [if_neg h]; exact hid2
    | clear =>
      intro l hl
      simp [applyOp, clearAll] at hl
    | importDoc d =>
      cases d with
      | none => exact hvalid
      | some doc =>
        show linksValid (importFlow s (some doc))
        rw [importFlow]
        cases doc.nodes with
        | none =>
          intro l hl
          simp [clearAll] at hl
        | some nds =>
          have hs2links : (importNodes (clearAll s) nds).links = [] := by
            rw [importNodes_links_eq]; rfl
          have hs2valid : linksValid (importNodes (clearAll s) nds) := by
            intro l hl
            rw [hs2links] at hl
            simp at hl
          cases doc.links with
          | none => exact hs2valid
          | some lds => exact importLinks_preserves_linksValid lds _ hs2valid

/-- Witness for the amended C4: a concrete deletion and a concrete
invariant-preserving operation. -/
theorem deleteNode_cascades_witness :
    ((∀ l ∈ (deleteNode gapLinkState "node_2").links,
        ¬ l.source = "node_2" ∧ ¬ l.target = "node_2") ∧
      (∀ n ∈ (deleteNode gapLinkState "node_2").nodes, ¬ n.id = "node_2")) ∧
    linksValid (applyOp fnState (.delLink "link_9")) := by
  constructor
  · exact deleteNode_cascades_and_invariant_preserved.1 gapLinkState "node_2" (by rfl)
  · refine deleteNode_cascades_and_invariant_preserved.2 fnState (.delLink "link_9") ?_ trivial
    intro l hl
    simp [fnState] at hl

/-! ### Claim C10: id-counter monotonicity across a session -/

/-- The ids `node_${++nodeCounter}` minted by the node-recreation pass of
an import, in order (one per serialized node, taken or not). -/
def importAssignedIds (s : EditorState) : List FlowNodeData → List String
  | [] => []
  | nd :: nds =>
    mkNodeId (s.nodeCounter + 1) ::
      importAssignedIds (createNode s nd.type nd.x nd.y nd.config).2 nds

/-- The ids minted by `createNode` while one operation runs (a failed
creation still consumes its id). -/
def opAssignedIds (s : EditorState) : StoreOp → List String
  | .create _ _ _ _ => [mkNodeId (s.nodeCounter + 1)]
  | .importDoc none => []
  | .importDoc (some doc) =>
    match doc.nodes with
    | none => []
    | some nds => importAssignedIds (clearAll s) nds
  | _ => []

/-- The number of `createNode` calls an operation performs. -/
def opCreateCount : StoreOp → ℕ
  | .create _ _ _ _ => 1
  | .importDoc none => 0
  | .importDoc (some doc) =>
    match doc.nodes with
    | none => 0
    | some nds => nds.length
  | _ => 0

/-- Running a session: a sequence of store operations. -/
def runSession (s : EditorState) : List StoreOp → EditorState
  | [] => s
  | op :: ops => runSession (applyOp s op) ops

/-- All ids minted by `createNode` over a whole session, in order. -/
def sessionAssignedIds (s : EditorState) : List StoreOp → List String
  | [] => []
  | op :: ops => opAssignedIds s op ++ sessionAssignedIds (applyOp s op) ops

theorem importNodes_nodeCounter (nds : List FlowNodeData) (t : EditorState) :
    (importNodes t nds).nodeCounter = t.nodeCounter + nds.length := by
  induction nds generalizing t with
  | nil => rfl
  | cons nd nds ih =>
    show (importNodes (createNode t nd.type nd.x nd.y nd.config).2 nds).nodeCounter = _
    rw [ih, createNode_nodeCounter, List.length_cons]
    omega

theorem importLinks_nodeCounter (lds : List FlowLinkData) (u : EditorState) :
    (importLinks u lds).nodeCounter = u.nodeCounter := by
  induction lds generalizing u with
  | nil => rfl
  | cons ld lds ih =>
    rw [importLinks]
    cases hs : findNode u ld.source with
    | none => exact ih u
    | some sn =>
      cases htg : findNode u ld.target with
      | none => exact ih u
      | some tn => rw [ih]; rw [createConnection_eq]

theorem deleteNode_nodeCounter (s : EditorState) (id : String) :
    (deleteNode s id).nodeCounter = s.nodeCounter := by
  rw [deleteNode]
  cases findNode s id with
  | none => rfl
  | some n =>
    simp only
    exact (foldl_deleteLink_rest _ s).2.1

theorem applyOp_nodeCounter (s : EditorState) (op : StoreOp) :
    (applyOp s op).nodeCounter = s.nodeCounter + opCreateCount op := by
  cases op with
  | create t x y c => exact createNode_nodeCounter s t x y c
  | connect n p tid tp =>
    show (connectionMouseUp s n p tid tp).nodeCounter = s.nodeCounter + 0
    rw [connectionMouseUp]
    cases findNode s tid with
    | none => rfl
    | some tn =>
      show (if tn.id = n.id then s else (createConnection s n p tn tp).2).nodeCounter = _
      by_cases h : tn.id = n.id
      · rw [if_pos h]; rfl
      · rw [if_neg h, createConnection_eq]; rfl
  | delNode id =>
    show (deleteNode s id).nodeCounter = s.nodeCounter + 0
    rw [deleteNode_nodeCounter]; rfl
  | delLink id => rfl
  | move id x y => rfl
  | clear => rfl
  | importDoc d =>
    cases d with
    | none => rfl
    | some doc =>
      cases doc with
      | mk dnodes dlinks =>
        show (importFlow s (some ⟨dnodes, dlinks⟩)).nodeCounter = _
        rw [importFlow]
        cases dnodes with
        | none => rfl
        | some nds =>
          cases dlinks with
          | none =>
            show (importNodes (clearAll s) nds).nodeCounter = _
            rw [importNodes_nodeCounter]
            rfl
          | some lds =>
            show (importLinks (importNodes (clearAll s) nds) lds).nodeCounter = _
            rw [importLinks_nodeCounter, importNodes_nodeCounter]
            rfl

theorem importAssignedIds_eq_range (nds : List FlowNodeData) (t : EditorState) :
    importAssignedIds t nds =
      (List.range' (t.nodeCounter + 1) nds.length).map mkNodeId := by
  induction nds generalizing t with
  | nil => rfl
  | cons nd nds ih =>
    rw [importAssignedIds, List.length_cons, List.range'_succ, List.map_cons, ih,
      createNode_nodeCounter]

theorem opAssignedIds_eq_range (s : EditorState) (op : StoreOp) :
    opAssignedIds s op =
      (List.range' (s.nodeCounter + 1) (opCreateCount op)).map mkNodeId := by
  cases op with
  | create t x y c => rfl
  | connect n p tid tp => rfl
  | delNode id => rfl
  | delLink id => rfl
  | move id x y => rfl
  | clear => rfl
  | importDoc d =>
    cases d with
    | none => rfl
    | some doc =>
      cases hnd : doc.nodes with
      | none => simp [opAssignedIds, opCreateCount, hnd]
      | some nds =>
        simp only [opAssignedIds, opCreateCount, hnd]
        rw [importAssignedIds_eq_range]
        rfl

/-- The total count of `createNode` calls in a session. -/
def sessionCreateCount (ops : List StoreOp) : ℕ := (ops.map opCreateCount).sum

theorem sessionAssignedIds_eq_range (ops : List StoreOp) (s : EditorState) :
    sessionAssignedIds s ops =
      (List.range' (s.nodeCounter + 1) (sessionCreateCount ops)).map mkNodeId := by
  induction ops generalizing s with
  | nil => rfl
  | cons op ops ih =>
    rw [sessionAssignedIds, ih, opAssignedIds_eq_range, applyOp_nodeCounter]
    have : sessionCreateCount (op :: ops) = opCreateCount op + sessionCreateCount ops := by
      simp [sessionCreateCount]
    rw [this, ← List.map_append]
    congr 1
    have h2 : s.nodeCounter + opCreateCount op + 1 =
        s.nodeCounter + 1 + opCreateCount op := by omega
    rw [h2, List.range'_append_1]
    congr 1
    omega

/-- C10: `createNode` pre-increments the id counter before validating the
type key, so a call with an unknown key returns null yet consumes an id;
`clearAll` does not reset the counter; and across any session of store
operations the ids minted by `createNode` are pairwise distinct - no id is
ever reused, even after failed creations and clears. -/
theorem createNode_ids_never_reused :
    (∀ s t x y c, lookupType t = none →
      (createNode s t x y c).1 = none ∧
      (createNode s t x y c).2.nodeCounter = s.nodeCounter + 1) ∧
    (∀ s, (clearAll s).nodeCounter = s.nodeCounter) ∧
    (∀ s ops, (sessionAssignedIds s ops).Nodup) := by
  refine ⟨?_, fun s => rfl, ?_⟩
  · intro s t x y c h
    rw [createNode_unknown s t x y c h]
    exact ⟨rfl, rfl⟩
  · intro s ops
    rw [sessionAssignedIds_eq_range]
    exact (List.nodup_range' _ _).map mkNodeId_injective

/-- Witness for C10: an unknown type key consumes an id, and a session with
two creations separated by a `clearAll` and a failed creation mints
pairwise-distinct ids. -/
theorem createNode_ids_never_reused_witness :
    lookupType "nonsense" = none ∧
    (createNode emptyEditor "nonsense" 0 0 []).1 = none ∧
    (createNode emptyEditor "nonsense" 0 0 []).2.nodeCounter = 1 ∧
    (clearAll gapState).nodeCounter = gapState.nodeCounter ∧
    (sessionAssignedIds emptyEditor
      [.create "debug" 0 0 [], .clear, .create "nonsense" 0 0 [],
       .create "debug" 1 1 []]).Nodup := by
  refine ⟨rfl, ?_, ?_, ?_, ?_⟩
  · exact (createNode_ids_never_reused.1 emptyEditor "nonsense" 0 0 [] rfl).1
  · exact (createNode_ids_never_reused.1 emptyEditor "nonsense" 0 0 [] rfl).2
  · exact createNode_ids_never_reused.2.1 gapState
  · exact createNode_ids_never_reused.2.2 emptyEditor _

/-! ### Messages and the per-type handlers

A message is the object literal the source-node executors build:
payload, topic, timestamp, originating node id (absent on the
network-simulation source, which sets `_msgid` instead). -/

structure Message where
  payload : JVal
  topic : String
  timestamp : String
  source : Option String
  msgid : Option String

/-- `config[key] || fallback` for a string-valued configuration field (the
registry only ever holds strings in these fields). -/
def fieldOr (config : Config) (key fallback : String) : String :=
  match lookupField config key with
  | some (.str s) => if s = "" then fallback else s
  | _ => fallback

/-- The message `executeExampleDataNode` builds (lines 848-853) around the
payload parsed from the config; `now` stands for `new Date().toISOString()`.
The source field is stamped with the producing node id. -/
def exampleDataMessage (node : Node) (payload : JVal) (now : String) : Message :=
  { payload := payload, topic := fieldOr node.config "name" "exampleData",
    timestamp := now, source := some node.id, msgid := none }

/-! ### Claim C5: the debug handler ring buffer -/

/-- What a debug entry displays: the bare payload or the whole message,
depending on `config.complete === 'payload'`. -/
inductive DebugData where
  | payload (p : JVal)
  | full (m : Message)

structure DebugEntry where
  timestamp : String
  data : DebugData
  fullMessage : Message

/-- The entry `executeDebugNode` records; `now` stands for
`new Date().toLocaleTimeString()`. -/
def mkDebugEntry (config : Config) (arrival : String × Message) : DebugEntry :=
  { timestamp := arrival.1,
    data := if primEqO (lookupField config "complete") (some (.str "payload"))
            then .payload arrival.2.payload else .full arrival.2,
    fullMessage := arrival.2 }

/-- `executeDebugNode(node, message)` on the node-local `debugOutputs` list:
unshift the new entry, then trim with `slice(0, 10)` when the length
exceeds 10. -/
def executeDebugNode (config : Config) (arrival : String × Message)
    (debugOutputs : List DebugEntry) : List DebugEntry :=
  let outputs1 := mkDebugEntry config arrival :: debugOutputs
  if outputs1.length > 10 then outputs1.take 10 else outputs1

/-- The `debugOutputs` list after a fresh debug node receives `msgs` in
order (each message paired with its arrival time string). -/
def runDebugNode (config : Config) (msgs : List (String × Message)) : List DebugEntry :=
  msgs.foldl (fun acc m => executeDebugNode config m acc) []

theorem executeDebugNode_foldl_spec (config : Config) (msgs : List (String × Message))
    (acc : List DebugEntry) (hacc : acc.length ≤ 10) :
    (msgs.foldl (fun a m => executeDebugNode config m a) acc).length =
        min (acc.length + msgs.length) 10 ∧
      (msgs ≠ [] → (msgs.foldl (fun a m => executeDebugNode config m a) acc).head? =
        (msgs.getLast?).map (mkDebugEntry config)) := by
  induction msgs generalizing acc with
  | nil =>
    refine ⟨?_, fun h => absurd rfl h⟩
    simp
    omega
  | cons m ms ih =>
    rw [List.foldl_cons]
    have hstep : (executeDebugNode config m acc).length = min (acc.length + 1) 10 := by
      rw [executeDebugNode]
      by_cases h : (mkDebugEntry config m :: acc).length > 10
      · rw [if_pos h]
        simp only [List.length_take, List.length_cons]
        simp at h ⊢
        omega
      · rw [if_neg h]
        simp only [List.length_cons]
        simp at h
        omega
    have hhead : (executeDebugNode config m acc).head? = some (mkDebugEntry config m) := by
      rw [executeDebugNode]
      by_cases h : (mkDebugEntry config m :: acc).length > 10
      · rw [if_pos h]
        rw [List.take_cons (by omega)]
        rfl
      · rw [if_neg h]
        rfl
    obtain ⟨ihlen, ihhead⟩ := ih (executeDebugNode config m acc) (by rw [hstep]; omega)
    refine ⟨?_, fun _ => ?_⟩
    · rw [ihlen, hstep, List.length_cons]
      omega
    · cases ms with
      | nil => simp [hhead]
      | cons b bs =>
        rw [ihhead (by simp), List.getLast?_cons_cons]

/-- C5: the debug node retains a bounded newest-first ring buffer of capacity
10: after receiving 12 messages the retained entry count is exactly 10 and
the first entry is the entry recorded for the most recently received
message. -/
theorem debug_ring_buffer_capacity_10 (config : Config) (msgs : List (String × Message))
    (h : msgs.length = 12) :
    (runDebugNode config msgs).length = 10 ∧
    (runDebugNode config msgs).head? = (msgs.getLast?).map (mkDebugEntry config) := by
  have hspec := executeDebugNode_foldl_spec config msgs [] (by simp)
  constructor
  · have h1 := hspec.1
    rw [h] at h1
    simpa using h1
  · exact hspec.2 (by
      intro hnil
      rw [hnil] at h
      simp at h)

/-- Twelve concrete arrivals for the C5 witness. -/
def debugMsgs12 : List (String × Message) :=
  (List.range 12).map (fun i => (natStr i, ⟨.num i, "t", natStr i, some "node_1", none⟩))

/-- Witness for C5 on twelve concrete messages. -/
theorem debug_ring_buffer_capacity_10_witness :
    debugMsgs12.length = 12 ∧
    (runDebugNode [] debugMsgs12).length = 10 ∧
    (runDebugNode [] debugMsgs12).head? = (debugMsgs12.getLast?).map (mkDebugEntry []) :=
  ⟨by decide,
   (debug_ring_buffer_capacity_10 [] debugMsgs12 (by decide)).1,
   (debug_ring_buffer_capacity_10 [] debugMsgs12 (by decide)).2⟩

/-! ### Claim C6: the data table handler -/

/-- Row normalization of `executeDataTableNode`: an array passes through, a
(non-null) object becomes a one-element sequence, anything else (including
null, whose typeof is object but which the code excludes explicitly) is
wrapped as `\x7bvalue: scalar\x7d`. -/
def normalizeTableRows (payload : JVal) : List JVal :=
  match payload with
  | .arr xs => xs
  | .obj fs => [.obj fs]
  | v => [.obj [("value", v)]]

/-- Truncation toward zero, the integer part `parseInt` extracts from the
decimal rendering of a (finite, plainly printed) number. -/
def jsTruncate (q : ℚ) : ℤ := if 0 ≤ q then ⌊q⌋ else -⌊-q⌋

/-- Longest leading run of decimal digits. -/
def takeDigits : List Char → List Char
  | [] => []
  | c :: cs => if c.isDigit then c :: takeDigits cs else []

/-- `parseInt` on a string: an optional sign followed by leading decimal
digits; anything else is NaN (`none`).  Leading-whitespace skipping and
radix prefixes are not exercised by the embedded configs. -/
def jsParseIntString (s : String) : Option ℤ :=
  match s.data with
  | '-' :: rest =>
    let ds := takeDigits rest
    if ds = [] then none else some (-(digitsVal ds : ℤ))
  | '+' :: rest =>
    let ds := takeDigits rest
    if ds = [] then none else some ((digitsVal ds : ℤ))
  | cs =>
    let ds := takeDigits cs
    if ds = [] then none else some ((digitsVal ds : ℤ))

/-- `parseInt` on a configuration value: numbers go through their decimal
rendering (truncation toward zero for the magnitudes configs hold), strings
are parsed, everything else is NaN. -/
def jsParseInt : Option JVal → Option ℤ
  | some (.num q) => some (jsTruncate q)
  | some (.str s) => jsParseIntString s
  | _ => none

/-- `v || d` for an integer left operand: NaN and 0 are falsy. -/
def jsOrIntD (v : Option ℤ) (d : ℤ) : ℤ :=
  match v with
  | some k => if k = 0 then d else k
  | none => d

/-- `Array.prototype.slice(k)` with an integer start index. -/
def jsSlice (xs : List JVal) (k : ℤ) : List JVal :=
  if 0 ≤ k then xs.drop k.toNat else xs.drop (xs.length - (-k).toNat)

/-- The parsed-and-defaulted max-row count `parseInt(config.maxRows) || 10`. -/
def maxRowsOf (config : Config) : ℤ :=
  jsOrIntD (jsParseInt (lookupField config "maxRows")) 10

/-- `executeDataTableNode(node, message)` acting on the node-local
`accumulatedData`: normalize the payload to rows; in append mode concatenate
and trim with `slice(-maxRows)` when over the limit; in replace mode store
the new rows. -/
def executeDataTableNode (config : Config) (message : Message)
    (accumulated : List JVal) : List JVal :=
  let newData := normalizeTableRows message.payload
  if truthyO (lookupField config "appendData") then
    let acc := accumulated ++ newData
    if (acc.length : ℤ) > maxRowsOf config then jsSlice acc (-(maxRowsOf config)) else acc
  else newData

/-- The last `n` elements of a list. -/
def takeLastN (xs : List JVal) (n : ℕ) : List JVal := xs.drop (xs.length - n)

theorem executeDataTableNode_append (config : Config) (message : Message)
    (accumulated : List JVal) (happend : truthyO (lookupField config "appendData") = true)
    (hpos : 0 < maxRowsOf config) :
    executeDataTableNode config message accumulated =
      takeLastN (accumulated ++ normalizeTableRows message.payload)
        (maxRowsOf config).toNat := by
  rw [executeDataTableNode]
  simp only [happend, if_true, if_pos]
  set acc := accumulated ++ normalizeTableRows message.payload with hacc
  set m := maxRowsOf config with hm
  by_cases h : (acc.length : ℤ) > m
  · rw [if_pos h, jsSlice, if_neg (by omega), takeLastN]
    congr 1
    omega
  · rw [if_neg h, takeLastN]
    have : acc.length - m.toNat = 0 := by omega
    rw [this, List.drop_zero]

/-- A dataTable config in append mode with maxRows 3. -/
def tableConfig3 : Config := [("appendData", .bool true), ("maxRows", .num 3)]

/-- The accumulator of a dataTable node after receiving `msgs` in order. -/
def runDataTable (config : Config) (msgs : List Message) : List JVal :=
  msgs.foldl (fun acc m => executeDataTableNode config m acc) []

/-- C6: the dataTable handler normalizes each payload to a row sequence (a
single object becomes a one-element sequence, a scalar becomes
`\x7bvalue: scalar\x7d`), concatenates it onto the per-node accumulator in append
mode, and truncates to the last maxRows rows, keeping the most recent rows
in arrival order; with maxRows 3, three single-row payloads leave exactly
those three rows in arrival order. -/
theorem dataTable_append_keeps_last_maxRows :
    (∀ fs, normalizeTableRows (.obj fs) = [.obj fs]) ∧
    (∀ q : ℚ, normalizeTableRows (.num q) = [.obj [("value", .num q)]]) ∧
    (∀ config message accumulated,
      truthyO (lookupField config "appendData") = true → 0 < maxRowsOf config →
      executeDataTableNode config message accumulated =
        takeLastN (accumulated ++ normalizeTableRows message.payload)
          (maxRowsOf config).toNat) ∧
    (∀ f1 f2 f3 : List (String × JVal),
      runDataTable tableConfig3
        [⟨.obj f1, "t", "1", none, none⟩, ⟨.obj f2, "t", "2", none, none⟩,
         ⟨.obj f3, "t", "3", none, none⟩] = [.obj f1, .obj f2, .obj f3]) :=
  ⟨fun _ => rfl, fun _ => rfl,
   fun config message accumulated h1 h2 =>
     executeDataTableNode_append config message accumulated h1 h2,
   fun _ _ _ => rfl⟩

/-- Witness for C6 at concrete inputs. -/
theorem dataTable_append_keeps_last_maxRows_witness :
    truthyO (lookupField tableConfig3 "appendData") = true ∧
    0 < maxRowsOf tableConfig3 ∧
    executeDataTableNode tableConfig3 ⟨.num 7, "t", "1", none, none⟩ [] =
      takeLastN ([] ++ normalizeTableRows (.num 7)) (maxRowsOf tableConfig3).toNat :=
  ⟨rfl, by decide,
   dataTable_append_keeps_last_maxRows.2.2.1 tableConfig3
     ⟨.num 7, "t", "1", none, none⟩ [] rfl (by decide)⟩

/-! ### Claim C7: pass-through propagation and the source field -/

/-- `executeFunctionNode` builds `processedMessage = \x7b...message\x7d`: a shallow
copy of every field, the source field included and unchanged (the configured
function body is not executed). -/
def executeFunctionNodeMessage (message : Message) : Message :=
  { payload := message.payload, topic := message.topic,
    timestamp := message.timestamp, source := message.source, msgid := message.msgid }

/-- `sendMessage(sourceNode, message)`: the (target id, delivered message)
pairs, one per outgoing link whose target resolves; the engine passes the
message object through unchanged. -/
def sendMessageDeliveries (s : EditorState) (sourceNode : Node) (m : Message) :
    List (String × Message) :=
  (s.links.filter (fun l => l.source = sourceNode.id)).filterMap
    (fun l => (findNode s l.target).map (fun t => (t.id, m)))

/-- The deliveries a function node makes when it receives `message`. -/
def executeFunctionNodeDeliveries (s : EditorState) (node : Node) (message : Message) :
    List (String × Message) :=
  sendMessageDeliveries s node (executeFunctionNodeMessage message)

/-- A store in which function node `node_2` feeds debug node `node_3`. -/
def fwdState : EditorState :=
  { nodes := [⟨"node_2", "function", 0, 0, defaultsOf "function", 1, 1⟩,
      ⟨"node_3", "debug", 0, 0, defaultsOf "debug", 1, 0⟩],
    links := [⟨"link_1", "node_2", 0, "node_3", 0⟩],
    nodeCounter := 3, linkCounter := 1 }

/-- The message a forwarding scenario starts from: produced by `node_1`. -/
def inMsg : Message := ⟨.num 1, "t", "ts", some "node_1", none⟩

/-- C7, counterexample: the function node `node_2` forwards `inMsg` to
`node_3`, and the delivered message still carries source `node_1`: the hop
does not update the originating node id to the forwarding node. -/
theorem function_hop_keeps_source :
    executeFunctionNodeDeliveries fwdState
        ⟨"node_2", "function", 0, 0, defaultsOf "function", 1, 1⟩ inMsg =
      [("node_3", inMsg)] ∧
    (executeFunctionNodeMessage inMsg).source = some "node_1" ∧
    some "node_1" ≠
      some (Node.id ⟨"node_2", "function", 0, 0, defaultsOf "function", 1, 1⟩) := by
  refine ⟨rfl, rfl, by decide⟩

/-- C7, amended: the pass-through function node produces a shallow copy with
every field unchanged - in particular the source field keeps the upstream
originating id rather than being updated to the forwarding node - and the
engine delivers that unchanged message to each resolved outgoing target.
A fresh source id is stamped only where a message is produced, in the
source-node executors (`executeExampleDataNode` sets source := node.id). -/
theorem function_node_forwards_unchanged :
    (∀ m, executeFunctionNodeMessage m = m) ∧
    (∀ s node m, executeFunctionNodeDeliveries s node m = sendMessageDeliveries s node m) ∧
    (∀ s node m p, p ∈ executeFunctionNodeDeliveries s node m → p.2.source = m.source) ∧
    (∀ node payload now, (exampleDataMessage node payload now).source = some node.id) := by
  refine ⟨fun m => rfl, fun s node m => rfl, ?_, fun node payload now => rfl⟩
  intro s node m p hp
  rw [executeFunctionNodeDeliveries, sendMessageDeliveries] at hp
  obtain ⟨l, hl, hmap⟩ := List.mem_filterMap.mp hp
  cases hfind : findNode s l.target with
  | none => rw [hfind] at hmap; cases hmap
  | some t =>
    rw [hfind] at hmap
    have hp2 : (t.id, executeFunctionNodeMessage m) = p := by simpa using hmap
    rw [← hp2]
    rfl

/-- Witness for the amended C7 at concrete inputs. -/
theorem function_node_forwards_unchanged_witness :
    executeFunctionNodeMessage inMsg = inMsg ∧
    (("node_3", inMsg) ∈ executeFunctionNodeDeliveries fwdState
        ⟨"node_2", "function", 0, 0, defaultsOf "function", 1, 1⟩ inMsg →
      ("node_3", inMsg).2.source = inMsg.source) ∧
    (exampleDataMessage ⟨"node_7", "exampleData", 0, 0, [], 0, 1⟩ (.num 2) "now").source =
      some "node_7" :=
  ⟨function_node_forwards_unchanged.1 inMsg,
   function_node_forwards_unchanged.2.2.1 fwdState
     ⟨"node_2", "function", 0, 0, defaultsOf "function", 1, 1⟩ inMsg ("node_3", inMsg),
   function_node_forwards_unchanged.2.2.2 ⟨"node_7", "exampleData", 0, 0, [], 0, 1⟩
     (.num 2) "now"⟩

/-! ### Claim C8: the graphViz handler

The node-local mini-graph.  Positions (`x`, `y`, seeded by `Math.random` and
rewritten by `applyLayout`, whose three layout routines mutate only
coordinates) are rendering state that never influences which nodes and edges
the mini-graph holds; they are omitted from the embedding, as is the final
`applyLayout` call. -/

structure VizNode where
  id : Option JVal
  label : Option JVal
  originalData : JVal

structure VizEdge where
  source : Option JVal
  target : Option JVal
  originalData : JVal

structure VizGraph where
  nodes : List VizNode
  edges : List VizEdge

def emptyViz : VizGraph := ⟨[], []⟩

/-- `nodes.find(n => n.id === idv)`. -/
def vizFindNode (nodes : List VizNode) (idv : Option JVal) : Option VizNode :=
  nodes.find? (fun n => primEqO n.id idv)

/-- `edges.find(e => e.source === sv && e.target === tv)`. -/
def vizFindEdge (edges : List VizEdge) (sv tv : Option JVal) : Option VizEdge :=
  edges.find? (fun e => primEqO e.source sv && primEqO e.target tv)

/-- The endpoint auto-creation inside `processDataItem`: push
`\x7bid, label: id, originalData: \x7b[nodeIdField]: id\x7d\x7d` unless a node with that
id exists. -/
def ensureNode (g : VizGraph) (v : JVal) (nodeIdField : String) : VizGraph :=
  match vizFindNode g.nodes (some v) with
  | some _ => g
  | none => { g with nodes := g.nodes ++ [⟨some v, some v, .obj [(nodeIdField, v)]⟩] }

/-- The array-valued-property scan of `processDataItem` (lines 2304-2338):
every scalar (string or number) entry of an array property becomes an
implicit edge from the current item id to the entry, skipping self-edges and
duplicates and auto-creating the endpoint node. -/
def processArrayProp (g : VizGraph) (nodeId : Option JVal) (kv : String × JVal)
    (nodeIdField : String) : VizGraph :=
  match kv.2 with
  | .arr vs =>
    vs.foldl (fun g v =>
      match v with
      | .str _ | .num _ =>
        match nodeId with
        | some nid =>
          if nid.truthy && !(v.primEq nid) then
            match vizFindEdge g.edges (some nid) (some v) with
            | some _ => g
            | none =>
              ensureNode
                { g with edges := g.edges ++
                    [⟨some nid, some v,
                      .obj [("type", .str "array_connection"), ("key", .str kv.1)]⟩] }
                v nodeIdField
          else g
        | none => g
      | _ => g) g
  | _ => g

/-- `processDataItem(node, item, ...)`: add a node for the item when its id
field is truthy (deduplicated by strict equality), add an explicit edge when
both the source and target fields are truthy (deduplicated as an ordered
pair, auto-creating both endpoints), then scan every property for arrays of
scalars. -/
def processDataItem (g : VizGraph) (item : JVal)
    (nodeIdField nodeLabelField edgeSourceField edgeTargetField : String) : VizGraph :=
  let nodeId := item.lookup nodeIdField
  let nodeLabel := if truthyO (item.lookup nodeLabelField)
                   then item.lookup nodeLabelField else nodeId
  let g1 :=
    if truthyO nodeId then
      match vizFindNode g.nodes nodeId with
      | some _ => g
      | none => { g with nodes := g.nodes ++ [⟨nodeId, nodeLabel, item⟩] }
    else g
  let g2 :=
    match item.lookup edgeSourceField, item.lookup edgeTargetField with
    | some sv, some tv =>
      if sv.truthy && tv.truthy then
        match vizFindEdge g1.edges (some sv) (some tv) with
        | some _ => g1
        | none =>
          ensureNode
            (ensureNode { g1 with edges := g1.edges ++ [⟨some sv, some tv, item⟩] }
              sv nodeIdField)
            tv nodeIdField
      else g1
    | _, _ => g1
  (item.fields).foldl (fun g kv => processArrayProp g nodeId kv nodeIdField) g2

/-- `a || b` on possibly-undefined values. -/
def jsOrO (a b : Option JVal) : Option JVal := if truthyO a then a else b

/-- `processNetworkData(node, data)`: the mini-graph is RESET to empty first
(line 2216, `node.networkData = \x7bnodes: [], edges: []\x7d`), then the current
payload is merged into it: array payloads item by item (non-object items are
skipped; array items pass the typeof check but contribute nothing), an
object with truthy `nodes` and `edges` is taken as a pre-structured graph
(a truthy non-array field makes the `.map` call throw, which the caller
catches, leaving the partially assigned reset state), and any other object
is processed as a single item.  Scalars leave the reset state. -/
def processNetworkData (config : Config) (data : JVal) : VizGraph :=
  let nodeIdField := fieldOr config "nodeIdField" "id"
  let nodeLabelField := fieldOr config "nodeLabelField" "name"
  let edgeSourceField := fieldOr config "edgeSourceField" "source"
  let edgeTargetField := fieldOr config "edgeTargetField" "target"
  match data with
  | .arr items =>
    items.foldl (fun g item =>
      match item with
      | .obj _ | .arr _ =>
        processDataItem g item nodeIdField nodeLabelField edgeSourceField edgeTargetField
      | _ => g) emptyViz
  | .obj fields =>
    let d : JVal := .obj fields
    if truthyO (d.lookup "nodes") && truthyO (d.lookup "edges") then
      match d.lookup "nodes", d.lookup "edges" with
      | some (.arr ns), some (.arr es) =>
        { nodes := ns.map (fun n =>
            ⟨jsOrO (n.lookup nodeIdField) (n.lookup "id"),
             jsOrO (n.lookup nodeLabelField) (jsOrO (n.lookup "name") (n.lookup "id")), n⟩),
          edges := es.map (fun e =>
            ⟨jsOrO (e.lookup edgeSourceField) (e.lookup "source"),
             jsOrO (e.lookup edgeTargetField) (e.lookup "target"), e⟩) }
      | some (.arr ns), _ =>
        { nodes := ns.map (fun n =>
            ⟨jsOrO (n.lookup nodeIdField) (n.lookup "id"),
             jsOrO (n.lookup nodeLabelField) (jsOrO (n.lookup "name") (n.lookup "id")), n⟩),
          edges := [] }
      | _, _ => emptyViz
    else processDataItem emptyViz d nodeIdField nodeLabelField edgeSourceField edgeTargetField
  | _ => emptyViz

/-- `executeGraphVizNode(node, message)` acting on the node-local
`networkData`: the previously accumulated mini-graph is passed in but
`processNetworkData` resets it before merging the current payload. -/
def executeGraphVizNode (networkData : VizGraph) (config : Config) (message : Message) :
    VizGraph :=
  processNetworkData config message.payload

def vizMsgA : Message := ⟨.obj [("id", .str "a")], "t", "1", none, none⟩
def vizMsgB : Message := ⟨.obj [("id", .str "b")], "t", "2", none, none⟩

/-- The mini-graph after a graphViz node with default config receives
`vizMsgA`. -/
def vizAfterA : VizGraph := executeGraphVizNode emptyViz [] vizMsgA

/-- C8, counterexample: the handler does not accumulate across messages.
After receiving the item with id `a`, receiving the item with id `b` leaves
a mini-graph holding only `b` - the previously accumulated node `a` is
discarded by the reset at the top of `processNetworkData`. -/
theorem graphViz_resets_across_messages :
    vizAfterA.nodes.map VizNode.id = [some (.str "a")] ∧
    (executeGraphVizNode vizAfterA [] vizMsgB).nodes.map VizNode.id = [some (.str "b")] ∧
    ¬ some (.str "a") ∈ (executeGraphVizNode vizAfterA [] vizMsgB).nodes.map VizNode.id := by
  refine ⟨rfl, rfl, ?_⟩
  intro h
  have he : (executeGraphVizNode vizAfterA [] vizMsgB).nodes.map VizNode.id =
      [some (.str "b")] := rfl
  rw [he] at h
  rcases List.mem_singleton.mp h with heq
  have : "a" = "b" := by
    injection (Option.some.inj heq)
  exact absurd this (by decide)

/-- C8, amended: the merge is per message, not across messages: the result
of the handler is independent of the previously accumulated mini-graph
(which `processNetworkData` resets), while the items of a single payload are
merged incrementally - id/label extraction, source/target edges with
auto-created endpoints, and implicit edges from array-valued properties all
accumulate across the items of one message. -/
theorem graphViz_merges_within_single_message :
    (∀ g g' config m, executeGraphVizNode g config m = executeGraphVizNode g' config m) ∧
    ((processNetworkData []
        (.arr [.obj [("id", .str "a")], .obj [("id", .str "b")],
               .obj [("id", .str "a")]])).nodes.map VizNode.id =
      [some (.str "a"), some (.str "b")]) ∧
    ((processNetworkData []
        (.obj [("id", .str "x"), ("source", .str "s"), ("target", .str "t"),
               ("friends", .arr [.str "f", .str "x", .num 42])])).nodes.map VizNode.id =
      [some (.str "x"), some (.str "s"), some (.str "t"), some (.str "f"),
       some (.num 42)]) ∧
    ((processNetworkData []
        (.obj [("id", .str "x"), ("source", .str "s"), ("target", .str "t"),
               ("friends", .arr [.str "f", .str "x", .num 42])])).edges.map
        (fun e => (e.source, e.target)) =
      [(some (.str "s"), some (.str "t")), (some (.str "x"), some (.str "f")),
       (some (.str "x"), some (.num 42))]) :=
  ⟨fun _ _ _ _ => rfl, rfl, rfl, rfl⟩

/-! ### Claim C9: the network-data generator

`generateNetworkData` draws from `Math.random()`; the embedding threads an
explicit stream `r : ℕ → ℚ` of its outputs (each in `[0,1)`) with a cursor.
The `metadata` object (type, counts, connectivity, a wall-clock timestamp)
is derived reporting data not used by any consumer modelled here and is
omitted. -/

/-- The stream of `Math.random()` outputs. -/
abbrev Rng := ℕ → ℚ

/-- `(q).toFixed(2)` then `parseFloat`: rounding to two decimals, half up
(the tie behaviour of binary floats is not observable at this precision in
anything modelled here). -/
def jsToFixed2 (q : ℚ) : ℚ := (⌊q * 100 + 1/2⌋ : ℚ) / 100

structure NetGenNode where
  id : String
  label : String
  type : String
  attrs : List (String × JVal)

structure NetGenEdge where
  source : String
  target : String
  attrs : List (String × JVal)

structure NetGenResult where
  nodes : List NetGenNode
  edges : List NetGenEdge

def socialRoles : List String := ["Friend", "Family", "Colleague", "Acquaintance", "Neighbor"]
def socialNames : List String :=
  ["Alice", "Bob", "Charlie", "Diana", "Eve", "Frank", "Grace", "Henry", "Iris", "Jack"]
def orgDepartments : List String := ["Engineering", "Marketing", "Sales", "HR", "Finance"]
def orgPositions : List String := ["Manager", "Director", "Analyst", "Specialist", "Coordinator"]
def techTypes : List String :=
  ["Server", "Database", "API", "Frontend", "Gateway", "Cache", "Queue", "Service"]

/-- `arr[Math.floor(random * arr.length)]` (always in range for draws in
`[0,1)`; the default is never reached then). -/
def pickFrom (xs : List String) (q : ℚ) : String :=
  (xs.get? (⌊q * xs.length⌋).toNat).getD ""

def socialNode (r : Rng) (includeAttributes : Bool) (i : ℕ) (idx : ℕ) : NetGenNode × ℕ :=
  let base : NetGenNode :=
    ⟨"person_" ++ natStr i, (socialNames.get? i).getD ("Person " ++ natStr i), "person", []⟩
  if includeAttributes then
    ({ base with attrs :=
        [("role", .str (pickFrom socialRoles (r idx))),
         ("age", .num ((⌊r (idx + 1) * 60⌋ : ℚ) + 18)),
         ("influence", .num (⌊r (idx + 2) * 100⌋ : ℚ))] }, idx + 3)
  else (base, idx)

def orgNode (r : Rng) (includeAttributes : Bool) (i : ℕ) (idx : ℕ) : NetGenNode × ℕ :=
  let base : NetGenNode :=
    ⟨"emp_" ++ natStr i, "Employee " ++ natStr (i + 1), "employee", []⟩
  if includeAttributes then
    ({ base with attrs :=
        [("department", .str (pickFrom orgDepartments (r idx))),
         ("position", .str (pickFrom orgPositions (r (idx + 1)))),
         ("experience", .num ((⌊r (idx + 2) * 20⌋ : ℚ) + 1)),
         ("salary", .num ((⌊r (idx + 3) * 100000⌋ : ℚ) + 40000))] }, idx + 4)
  else (base, idx)

def techNode (r : Rng) (includeAttributes : Bool) (i : ℕ) (idx : ℕ) : NetGenNode × ℕ :=
  let base : NetGenNode :=
    ⟨"tech_" ++ natStr i,
     (techTypes.get? (i % techTypes.length)).getD "" ++ "-" ++ natStr (i / techTypes.length + 1),
     "component", []⟩
  if includeAttributes then
    ({ base with attrs :=
        [("status", .str (if r idx > 8/10 then "down" else "up")),
         ("load", .num (⌊r (idx + 1) * 100⌋ : ℚ)),
         ("memory", .num ((⌊r (idx + 2) * 16⌋ : ℚ) + 1)),
         ("cpu", .num (⌊r (idx + 3) * 100⌋ : ℚ))] }, idx + 4)
  else (base, idx)

def randomNode (r : Rng) (includeAttributes : Bool) (i : ℕ) (idx : ℕ) : NetGenNode × ℕ :=
  let base : NetGenNode := ⟨"node_" ++ natStr i, "Node " ++ natStr (i + 1), "generic", []⟩
  if includeAttributes then
    ({ base with attrs :=
        [("value", .num (⌊r idx * 1000⌋ : ℚ)),
         ("category", .str (pickFrom ["A", "B", "C"] (r (idx + 1)))),
         ("weight", .num (jsToFixed2 (r (idx + 2) * 10)))] }, idx + 3)
  else (base, idx)

/-- Runs `f` on indices `i, i+1, ..., i+count-1`, threading the rng cursor:
the `for` loops that push one node per index. -/
def genListIdx {α : Type} (f : ℕ → ℕ → α × ℕ) : ℕ → ℕ → ℕ → List α × ℕ
  | _, 0, idx => ([], idx)
  | i, count + 1, idx =>
    let (a, idx1) := f i idx
    let (rest, idx2) := genListIdx f (i + 1) count idx1
    (a :: rest, idx2)

/-- The four domain-flavoured node-generation branches. -/
def genNodes (networkType : String) (r : Rng) (count : ℕ) (includeAttributes : Bool)
    (idx : ℕ) : List NetGenNode × ℕ :=
  if networkType = "social" then genListIdx (socialNode r includeAttributes) 0 count idx
  else if networkType = "organizational" then genListIdx (orgNode r includeAttributes) 0 count idx
  else if networkType = "technical" then genListIdx (techNode r includeAttributes) 0 count idx
  else genListIdx (randomNode r includeAttributes) 0 count idx

/-- The id `generateNetworkData` gives node `i` of each domain. -/
def genNodeId (networkType : String) (i : ℕ) : String :=
  if networkType = "social" then "person_" ++ natStr i
  else if networkType = "organizational" then "emp_" ++ natStr i
  else if networkType = "technical" then "tech_" ++ natStr i
  else "node_" ++ natStr i

/-- `` `${Math.min(source,target)}-${Math.max(source,target)}` ``, the
unordered-pair key of the duplicate-rejection set. -/
def pairKey (s t : ℤ) : String := intStr (min s t) ++ "-" ++ intStr (max s t)

/-- The do-while retry loop picking a candidate pair: draw source and
target, count an attempt, break out once attempts exceed twice the target
link count (`fuel` counts the picks still allowed, starting at
`2 * targetLinkCount + 1`), else retry while the pair is a self-pair or its
key was already used. -/
def pickPair (r : Rng) (N : ℤ) (used : List String) : ℕ → ℕ → (ℤ × ℤ) × ℕ
  | 0, idx => ((0, 0), idx)
  | fuel + 1, idx =>
    let s := ⌊r idx * N⌋
    let t := ⌊r (idx + 1) * N⌋
    if fuel = 0 then ((s, t), idx + 2)
    else if s = t ∨ pairKey s t ∈ used then pickPair r N used fuel (idx + 2)
    else ((s, t), idx + 2)

/-- `nodes[k].id` for an integer index (in range whenever the rng draws lie
in `[0,1)`; the JavaScript would throw otherwise). -/
def nodeIdAt (nodes : List NetGenNode) (k : ℤ) : String :=
  ((nodes.get? k.toNat).map NetGenNode.id).getD "undefined"

/-- The per-domain link attributes, drawn after a pair is accepted. -/
def edgeAttrs (networkType : String) (r : Rng) (includeAttributes : Bool) (idx : ℕ) :
    List (String × JVal) × ℕ :=
  if includeAttributes then
    let weight := jsToFixed2 (r idx * 10 + 1)
    if networkType = "social" then
      ([("weight", .num weight),
        ("relationship", .str (pickFrom ["friend", "family", "colleague"] (r (idx + 1))))],
       idx + 2)
    else if networkType = "organizational" then
      ([("weight", .num weight), ("reportingLine", .bool (decide (r (idx + 1) > 7/10)))],
       idx + 2)
    else if networkType = "technical" then
      ([("weight", .num weight),
        ("protocol", .str (pickFrom ["HTTP", "TCP", "UDP", "WebSocket"] (r (idx + 1)))),
        ("latency", .num ((⌊r (idx + 2) * 100⌋ : ℚ) + 1))], idx + 3)
    else ([("weight", .num weight)], idx + 1)
  else ([], idx)

/-- One iteration of the link-generation loop: run the retry loop, then, if
the final candidate is a non-self pair whose key is unused, record the key
and push the link (ids resolved through the node list, attributes drawn). -/
def edgeStep (networkType : String) (r : Rng) (N : ℤ) (nodes : List NetGenNode)
    (includeAttributes : Bool) (fuel : ℕ)
    (st : List String × List NetGenEdge × ℕ) : List String × List NetGenEdge × ℕ :=
  let used := st.1
  let links := st.2.1
  let idx := st.2.2
  let pick := pickPair r N used fuel idx
  let s := pick.1.1
  let t := pick.1.2
  let idx1 := pick.2
  if s ≠ t ∧ pairKey s t ∉ used then
    let att := edgeAttrs networkType r includeAttributes idx1
    (used ++ [pairKey s t],
     links ++ [⟨nodeIdAt nodes s, nodeIdAt nodes t, att.1⟩], att.2)
  else (used, links, idx1)

/-- `generateNetworkData(networkType, nodeCount, connectivity,
includeAttributes)`: generate the domain-flavoured nodes, compute the target
link count `Math.floor(nodeCount*(nodeCount-1)/2 * connectivity)`, then run
the bounded rejection-sampling loop once per target link. -/
def generateNetworkData (networkType : String) (nodeCount : ℤ) (connectivity : ℚ)
    (includeAttributes : Bool) (r : Rng) : NetGenResult :=
  let gen := genNodes networkType r nodeCount.toNat includeAttributes 0
  let nodes := gen.1
  let idx0 := gen.2
  let maxPossibleLinks : ℚ := ((nodeCount : ℚ) * ((nodeCount : ℚ) - 1)) / 2
  let targetLinkCount : ℤ := ⌊maxPossibleLinks * connectivity⌋
  let fuel := (targetLinkCount * 2 + 1).toNat
  let final := (List.range targetLinkCount.toNat).foldl
    (fun st _ => edgeStep networkType r nodeCount nodes includeAttributes fuel st)
    ([], [], idx0)
  ⟨nodes, final.2.1⟩

theorem genListIdx_length {α : Type} (f : ℕ → ℕ → α × ℕ) :
    ∀ (count i idx : ℕ), ((genListIdx f i count idx).1).length = count := by
  intro count
  induction count with
  | zero => intro i idx; rfl
  | succ c ih =>
    intro i idx
    show ((f i idx).1 :: (genListIdx f (i + 1) c (f i idx).2).1).length = c + 1
    rw [List.length_cons, ih]

theorem genListIdx_get? {α : Type} (f : ℕ → ℕ → α × ℕ) (key : α → String)
    (g : ℕ → String) (hf : ∀ j idx, key (f j idx).1 = g j) :
    ∀ (count i idx k : ℕ), k < count →
      (((genListIdx f i count idx).1).get? k).map key = some (g (i + k)) := by
  intro count
  induction count with
  | zero => intro i idx k hk; omega
  | succ c ih =>
    intro i idx k hk
    show ((((f i idx).1 :: (genListIdx f (i + 1) c (f i idx).2).1).get? k).map key) = _
    cases k with
    | zero => simp [hf]
    | succ k =>
      rw [List.get?_cons_succ]
      rw [ih (i + 1) (f i idx).2 k (by omega)]
      have harith : i + 1 + k = i + (k + 1) := by omega
      rw [harith]

theorem socialNode_id (r : Rng) (b : Bool) (i idx : ℕ) :
    (socialNode r b i idx).1.id = "person_" ++ natStr i := by
  cases b <;> rfl

theorem orgNode_id (r : Rng) (b : Bool) (i idx : ℕ) :
    (orgNode r b i idx).1.id = "emp_" ++ natStr i := by
  cases b <;> rfl

theorem techNode_id (r : Rng) (b : Bool) (i idx : ℕ) :
    (techNode r b i idx).1.id = "tech_" ++ natStr i := by
  cases b <;> rfl

theorem randomNode_id (r : Rng) (b : Bool) (i idx : ℕ) :
    (randomNode r b i idx).1.id = "node_" ++ natStr i := by
  cases b <;> rfl

theorem genNodes_length (networkType : String) (r : Rng) (count : ℕ) (b : Bool) (idx : ℕ) :
    ((genNodes networkType r count b idx).1).length = count := by
  rw [genNodes]
  split_ifs <;> rw [genListIdx_length]

theorem genNodes_get?_id (networkType : String) (r : Rng) (count : ℕ) (b : Bool)
    (idx : ℕ) (k : ℕ) (hk : k < count) :
    (((genNodes networkType r count b idx).1).get? k).map NetGenNode.id =
      some (genNodeId networkType k) := by
  rw [genNodes, genNodeId]
  split_ifs with h1 h2 h3
  · rw [genListIdx_get? _ NetGenNode.id (fun j => "person_" ++ natStr j)
      (socialNode_id r b) count 0 idx k hk, Nat.zero_add]
  · rw [genListIdx_get? _ NetGenNode.id (fun j => "emp_" ++ natStr j)
      (orgNode_id r b) count 0 idx k hk, Nat.zero_add]
  · rw [genListIdx_get? _ NetGenNode.id (fun j => "tech_" ++ natStr j)
      (techNode_id r b) count 0 idx k hk, Nat.zero_add]
  · rw [genListIdx_get? _ NetGenNode.id (fun j => "node_" ++ natStr j)
      (randomNode_id r b) count 0 idx k hk, Nat.zero_add]

theorem genNodeId_injective (networkType : String) :
    Function.Injective (genNodeId networkType) := by
  intro i j h
  rw [genNodeId, genNodeId] at h
  split_ifs at h <;>
    exact natStr_injective (string_append_right_injective _ h)

theorem floor_mul_range (q : ℚ) (N : ℤ) (hq0 : 0 ≤ q) (hq1 : q < 1) (hN : 1 ≤ N) :
    0 ≤ ⌊q * (N : ℚ)⌋ ∧ ⌊q * (N : ℚ)⌋ < N := by
  constructor
  · apply Int.floor_nonneg.mpr
    positivity
  · rw [Int.floor_lt]
    calc q * (N : ℚ) < 1 * (N : ℚ) := by
          apply mul_lt_mul_of_pos_right hq1
          exact_mod_cast hN
    _ = (N : ℚ) := one_mul _

theorem pickPair_range (r : Rng) (hr : ∀ i, 0 ≤ r i ∧ r i < 1) (N : ℤ) (hN : 1 ≤ N)
    (used : List String) : ∀ (fuel idx : ℕ),
    0 ≤ (pickPair r N used fuel idx).1.1 ∧ (pickPair r N used fuel idx).1.1 < N ∧
    0 ≤ (pickPair r N used fuel idx).1.2 ∧ (pickPair r N used fuel idx).1.2 < N := by
  intro fuel
  induction fuel with
  | zero =>
    intro idx
    exact ⟨le_rfl, by show (0 : ℤ) < N; omega, le_rfl, by show (0 : ℤ) < N; omega⟩
  | succ fuel ih =>
    intro idx
    rw [pickPair]
    obtain ⟨hs0, hs1⟩ := floor_mul_range (r idx) N (hr idx).1 (hr idx).2 hN
    obtain ⟨ht0, ht1⟩ := floor_mul_range (r (idx + 1)) N (hr (idx + 1)).1 (hr (idx + 1)).2 hN
    by_cases hf : fuel = 0
    · rw [if_pos hf]
      exact ⟨hs0, hs1, ht0, ht1⟩
    · rw [if_neg hf]
      by_cases hc : ⌊r idx * (N : ℚ)⌋ = ⌊r (idx + 1) * (N : ℚ)⌋ ∨
          pairKey ⌊r idx * (N : ℚ)⌋ ⌊r (idx + 1) * (N : ℚ)⌋ ∈ used
      · rw [if_pos hc]
        exact ih (idx + 2)
      · rw [if_neg hc]
        exact ⟨hs0, hs1, ht0, ht1⟩

theorem pairKey_unordered (p q : ℤ × ℤ)
    (h : (p.1 = q.1 ∧ p.2 = q.2) ∨ (p.1 = q.2 ∧ p.2 = q.1)) :
    pairKey p.1 p.2 = pairKey q.1 q.2 := by
  rcases h with ⟨h1, h2⟩ | ⟨h1, h2⟩
  · rw [h1, h2]
  · rw [pairKey, pairKey, h1, h2, min_comm, max_comm]

/-- The loop invariant of the link-generation fold: the used-key set is
exactly the key of each accepted index pair in order, every link's endpoint
ids are the node ids at those indices, every accepted pair is in range and
not a self-pair, and the key set has no duplicates. -/
def EdgeInv (networkType : String) (N : ℤ) (used : List String)
    (links : List NetGenEdge) : Prop :=
  ∃ ps : List (ℤ × ℤ),
    used = ps.map (fun p => pairKey p.1 p.2) ∧
    List.Forall₂ (fun (l : NetGenEdge) (p : ℤ × ℤ) =>
      l.source = genNodeId networkType p.1.toNat ∧
      l.target = genNodeId networkType p.2.toNat) links ps ∧
    (∀ p ∈ ps, 0 ≤ p.1 ∧ p.1 < N ∧ 0 ≤ p.2 ∧ p.2 < N ∧ p.1 ≠ p.2) ∧
    used.Nodup

theorem edgeStep_inv (networkType : String) (r : Rng) (N : ℤ)
    (nodes : List NetGenNode) (incl : Bool) (fuel : ℕ)
    (st : List String × List NetGenEdge × ℕ)
    (hr : ∀ i, 0 ≤ r i ∧ r i < 1) (hN : 1 ≤ N)
    (hnodes : ∀ k : ℕ, k < N.toNat →
      ((nodes.get? k).map NetGenNode.id) = some (genNodeId networkType k))
    (hinv : EdgeInv networkType N st.1 st.2.1) :
    EdgeInv networkType N (edgeStep networkType r N nodes incl fuel st).1
      (edgeStep networkType r N nodes incl fuel st).2.1 := by
  obtain ⟨used, links, idx⟩ := st
  obtain ⟨hs0, hs1, ht0, ht1⟩ := pickPair_range r hr N hN used fuel idx
  rw [edgeStep]
  dsimp only at hinv ⊢
  by_cases h : (pickPair r N used fuel idx).1.1 ≠ (pickPair r N used fuel idx).1.2 ∧
      pairKey (pickPair r N used fuel idx).1.1 (pickPair r N used fuel idx).1.2 ∉ used
  · rw [if_pos h]
    dsimp only
    obtain ⟨ps, hused, hfa, hrange, hnodup⟩ := hinv
    set s := (pickPair r N used fuel idx).1.1 with hsdef
    set t := (pickPair r N used fuel idx).1.2 with htdef
    refine ⟨ps ++ [(s, t)], ?_, ?_, ?_, ?_⟩
    · rw [List.map_append, ← hused]
      rfl
    · apply List.rel_append hfa
      refine List.Forall₂.cons ⟨?_, ?_⟩ List.Forall₂.nil
      · show nodeIdAt nodes s = genNodeId networkType s.toNat
        rw [nodeIdAt, hnodes s.toNat (by omega)]
        rfl
      · show nodeIdAt nodes t = genNodeId networkType t.toNat
        rw [nodeIdAt, hnodes t.toNat (by omega)]
        rfl
    · intro p hp
      rcases List.mem_append.mp hp with hmem | hmem
      · exact hrange p hmem
      · rcases List.mem_singleton.mp hmem with rfl
        exact ⟨hs0, hs1, ht0, ht1, h.1⟩
    · apply List.Nodup.append hnodup (List.nodup_singleton _)
      intro x hx hx2
      rcases List.mem_singleton.mp hx2 with rfl
      exact h.2 hx
  · rw [if_neg h]
    exact hinv

theorem foldl_edgeStep_inv (networkType : String) (r : Rng) (N : ℤ)
    (nodes : List NetGenNode) (incl : Bool) (fuel : ℕ) (l : List ℕ)
    (hr : ∀ i, 0 ≤ r i ∧ r i < 1) (hN : 1 ≤ N)
    (hnodes : ∀ k : ℕ, k < N.toNat →
      ((nodes.get? k).map NetGenNode.id) = some (genNodeId networkType k)) :
    ∀ st, EdgeInv networkType N st.1 st.2.1 →
      EdgeInv networkType N
        (l.foldl (fun st _ => edgeStep networkType r N nodes incl fuel st) st).1
        (l.foldl (fun st _ => edgeStep networkType r N nodes incl fuel st) st).2.1 := by
  induction l with
  | nil => exact fun st h => h
  | cons a l ih =>
    intro st h
    rw [List.foldl_cons]
    exact ih _ (edgeStep_inv networkType r N nodes incl fuel st hr hN hnodes h)

theorem edgeStep_length (networkType : String) (r : Rng) (N : ℤ)
    (nodes : List NetGenNode) (incl : Bool) (fuel : ℕ)
    (st : List String × List NetGenEdge × ℕ) :
    (edgeStep networkType r N nodes incl fuel st).2.1.length ≤ st.2.1.length + 1 := by
  obtain ⟨used, links, idx⟩ := st
  rw [edgeStep]
  dsimp only
  by_cases h : (pickPair r N used fuel idx).1.1 ≠ (pickPair r N used fuel idx).1.2 ∧
      pairKey (pickPair r N used fuel idx).1.1 (pickPair r N used fuel idx).1.2 ∉ used
  · rw [if_pos h]
    simp
  · rw [if_neg h]
    simp

theorem foldl_edgeStep_length (networkType : String) (r : Rng) (N : ℤ)
    (nodes : List NetGenNode) (incl : Bool) (fuel : ℕ) (l : List ℕ) :
    ∀ st, (l.foldl (fun st _ => edgeStep networkType r N nodes incl fuel st) st).2.1.length ≤
      st.2.1.length + l.length := by
  induction l with
  | nil => intro st; simp
  | cons a l ih =>
    intro st
    rw [List.foldl_cons]
    calc (l.foldl _ (edgeStep networkType r N nodes incl fuel st)).2.1.length
        ≤ (edgeStep networkType r N nodes incl fuel st).2.1.length + l.length := ih _
      _ ≤ st.2.1.length + 1 + l.length :=
          Nat.add_le_add_right (edgeStep_length networkType r N nodes incl fuel st) _
      _ = st.2.1.length + (a :: l).length := by rw [List.length_cons]; omega

/-- C9: for every run of the generator with the rng outputs in `[0,1)`, a
nonnegative node count and a nonnegative connectivity, the result has
exactly `nodeCount` nodes, no self-referencing edge, no duplicate unordered
edge pair, and at most `floor(nodeCount*(nodeCount-1)/2 * connectivity)`
edges; each accepted edge comes out of the retry loop `pickPair`, whose
attempt counter is capped at `2 * targetLinkCount + 1` picks. -/
theorem generateNetworkData_properties (networkType : String) (nodeCount : ℤ)
    (connectivity : ℚ) (incl : Bool) (r : Rng)
    (hr : ∀ i, 0 ≤ r i ∧ r i < 1) (hN : 0 ≤ nodeCount) (hc : 0 ≤ connectivity) :
    (generateNetworkData networkType nodeCount connectivity incl r).nodes.length
        = nodeCount.toNat ∧
    (∀ e ∈ (generateNetworkData networkType nodeCount connectivity incl r).edges,
        e.source ≠ e.target) ∧
    List.Pairwise (fun e1 e2 =>
        ¬ ((e1.source = e2.source ∧ e1.target = e2.target) ∨
           (e1.source = e2.target ∧ e1.target = e2.source)))
      (generateNetworkData networkType nodeCount connectivity incl r).edges ∧
    ((generateNetworkData networkType nodeCount connectivity incl r).edges.length : ℤ)
        ≤ ⌊((nodeCount : ℚ) * ((nodeCount : ℚ) - 1)) / 2 * connectivity⌋ := by
  set T : ℤ := ⌊((nodeCount : ℚ) * ((nodeCount : ℚ) - 1)) / 2 * connectivity⌋ with hTdef
  set nodes := (genNodes networkType r nodeCount.toNat incl 0).1 with hnodesdef
  set fuel := (T * 2 + 1).toNat with hfueldef
  set idx0 := (genNodes networkType r nodeCount.toNat incl 0).2 with hidx0def
  set final := (List.range T.toNat).foldl
    (fun st _ => edgeStep networkType r nodeCount nodes incl fuel st)
    ([], [], idx0) with hfinaldef
  have hres : generateNetworkData networkType nodeCount connectivity incl r =
      ⟨nodes, final.2.1⟩ := rfl
  have hmp : (0:ℚ) ≤ ((nodeCount : ℚ) * ((nodeCount : ℚ) - 1)) / 2 := by
    rcases eq_or_lt_of_le hN with h0 | h1
    · rw [← h0]; norm_num
    · have h1' : (1:ℚ) ≤ (nodeCount : ℚ) := by exact_mod_cast h1
      nlinarith
  have hT0 : 0 ≤ T := Int.floor_nonneg.mpr (mul_nonneg hmp hc)
  have hG1 : (generateNetworkData networkType nodeCount connectivity incl r).nodes.length
      = nodeCount.toNat := by
    rw [hres]
    exact genNodes_length networkType r nodeCount.toNat incl 0
  by_cases hTpos : 1 ≤ T
  · -- the loop runs: the node count must be at least 2
    have hN2 : 2 ≤ nodeCount := by
      by_contra hlt
      push_neg at hlt
      have hQ : (1:ℚ) ≤ ((nodeCount : ℚ) * ((nodeCount : ℚ) - 1)) / 2 * connectivity := by
        have := Int.le_floor.mp hTpos
        exact_mod_cast this
      interval_cases nodeCount <;> norm_num at hQ
    have hN1 : (1:ℤ) ≤ nodeCount := by omega
    have hnodes_id : ∀ k : ℕ, k < nodeCount.toNat →
        ((nodes.get? k).map NetGenNode.id) = some (genNodeId networkType k) := by
      intro k hk
      rw [hnodesdef]
      exact genNodes_get?_id networkType r nodeCount.toNat incl 0 k hk
    have hinv0 : EdgeInv networkType nodeCount
        (([], ([] : List NetGenEdge), idx0) : List String × List NetGenEdge × ℕ).1
        (([], ([] : List NetGenEdge), idx0) : List String × List NetGenEdge × ℕ).2.1 :=
      ⟨[], rfl, List.Forall₂.nil, by simp, List.nodup_nil⟩
    have hinvF := foldl_edgeStep_inv networkType r nodeCount nodes incl fuel
      (List.range T.toNat) hr hN1 hnodes_id ([], [], idx0) hinv0
    rw [← hfinaldef] at hinvF
    obtain ⟨psf, husedf, hfaf, hrangef, hnodupf⟩ := hinvF
    have hid_inj : ∀ a b : ℤ, 0 ≤ a → 0 ≤ b →
        genNodeId networkType a.toNat = genNodeId networkType b.toNat → a = b := by
      intro a b ha hb h
      have := genNodeId_injective networkType h
      omega
    obtain ⟨hlenf, hgetf⟩ := List.forall₂_iff_get.mp hfaf
    refine ⟨hG1, ?_, ?_, ?_⟩
    · -- no self-referencing edge
      intro e he
      rw [hres] at he
      obtain ⟨⟨i, hi⟩, hei⟩ := List.mem_iff_get.mp he
      obtain ⟨hsrc, htgt⟩ := hgetf i hi (hlenf ▸ hi)
      have hpmem := psf.get_mem i (hlenf ▸ hi)
      obtain ⟨hp1, hp2, hp3, hp4, hp5⟩ := hrangef _ hpmem
      rw [← hei, hsrc, htgt]
      intro heq
      exact hp5 (hid_inj _ _ hp1 hp3 heq)
    · -- no duplicate unordered pair
      rw [hres]
      have hkeys : List.Pairwise
          (fun p q : ℤ × ℤ => pairKey p.1 p.2 ≠ pairKey q.1 q.2) psf := by
        have hmapnd : (psf.map (fun p => pairKey p.1 p.2)).Nodup := husedf ▸ hnodupf
        exact (List.pairwise_map.mp hmapnd)
      rw [List.pairwise_iff_getElem]
      intro i j hi hj hij
      have hi' : i < final.2.1.length := hi
      have hj' : j < final.2.1.length := hj
      obtain ⟨hsi, hti⟩ := hgetf i hi' (hlenf ▸ hi')
      obtain ⟨hsj, htj⟩ := hgetf j hj' (hlenf ▸ hj')
      have hkij := List.pairwise_iff_getElem.mp hkeys i j (hlenf ▸ hi') (hlenf ▸ hj') hij
      obtain ⟨hpi1, hpi2, hpi3, hpi4, hpi5⟩ := hrangef _ (psf.get_mem i (hlenf ▸ hi'))
      obtain ⟨hpj1, hpj2, hpj3, hpj4, hpj5⟩ := hrangef _ (psf.get_mem j (hlenf ▸ hj'))
      intro hbad
      simp only [List.get_eq_getElem] at hsi hti hsj htj
      apply hkij
      rcases hbad with ⟨hA, hB⟩ | ⟨hA, hB⟩
      · rw [hsi, hsj] at hA
        rw [hti, htj] at hB
        have e1 := hid_inj _ _ hpi1 hpj1 hA
        have e2 := hid_inj _ _ hpi3 hpj3 hB
        exact pairKey_unordered _ _ (Or.inl ⟨e1, e2⟩)
      · rw [hsi, htj] at hA
        rw [hti, hsj] at hB
        have e1 := hid_inj _ _ hpi1 hpj3 hA
        have e2 := hid_inj _ _ hpi3 hpj1 hB
        exact pairKey_unordered _ _ (Or.inr ⟨e1, e2⟩)
    · -- edge count bounded by the floor
      rw [hres]
      have hlenb := foldl_edgeStep_length networkType r nodeCount nodes incl fuel
        (List.range T.toNat) ([], [], idx0)
      rw [← hfinaldef] at hlenb
      simp only [List.length_range] at hlenb
      have hfl : final.2.1.length ≤ T.toNat := by simpa using hlenb
      show ((final.2.1.length : ℕ) : ℤ) ≤ T
      omega
  · -- the loop does not run at all
    have hT0' : T.toNat = 0 := by omega
    have hedges : final.2.1 = [] := by
      rw [hfinaldef, hT0']
      rfl
    refine ⟨hG1, ?_, ?_, ?_⟩
    · intro e he
      rw [hres] at he
      rw [hedges] at he
      cases he
    · rw [hres]
      rw [hedges]
      exact List.Pairwise.nil
    · rw [hres]
      rw [hedges]
      simpa using hT0

/-- Witness for C9 at the claim instance: networkType social, nodeCount 8,
connectivity 0.3, the constant-zero rng stream. -/
theorem generateNetworkData_properties_witness :
    (∀ i : ℕ, 0 ≤ (fun _ : ℕ => (0:ℚ)) i ∧ (fun _ : ℕ => (0:ℚ)) i < 1) ∧
    ((0:ℤ) ≤ 8 ∧ (0:ℚ) ≤ 3/10) ∧
    ⌊(((8:ℤ) : ℚ) * (((8:ℤ) : ℚ) - 1)) / 2 * (3/10)⌋ = 8 ∧
    (generateNetworkData "social" 8 (3/10) true (fun _ => 0)).nodes.length = 8 ∧
    ((generateNetworkData "social" 8 (3/10) true (fun _ => 0)).edges.length : ℤ) ≤
      ⌊(((8:ℤ) : ℚ) * (((8:ℤ) : ℚ) - 1)) / 2 * (3/10)⌋ := by
  have happ := generateNetworkData_properties "social" 8 (3/10) true (fun _ => 0)
    (fun _ => ⟨le_rfl, by norm_num⟩) (by norm_num) (by norm_num)
  exact ⟨fun _ => ⟨le_rfl, by norm_num⟩, ⟨by norm_num, by norm_num⟩, by norm_num,
    happ.1, happ.2.2.2⟩

end FlowSpec
